import Mathlib

/-!
Verification of gocacher: the in-process memory backend (`locmem.go`), the
driver registry and facade (`cache.go`) and the settings of the Redis backend
(`redis.go`).

A shallow embedding of `phonkee/gocacher`.

* A `[]byte` is a list of byte codes (`Bytes`); Go's `nil` slice and the empty
  slice are both `[]`.
* A `time.Time` is an instant counted in nanoseconds from the zero `time.Time`
  (January 1, year 1, 00:00:00 UTC), so `time.Time{}` is `0`; a
  `time.Duration` is a signed 64-bit count of nanoseconds.
* Go's `int` is the 64-bit two's-complement integer of the 64-bit targets;
  arithmetic on it wraps (`wrapInt`).
* The package-level `storage` map is threaded through every operation as an
  explicit argument and result.  The mutex is not modelled: every operation
  runs to completion before the next one starts.
* A panic is the result `none`.
-/

namespace Gocacher

/-! Machine integers, durations and instants -/

/-- Smallest value of Go's `int`. -/
def minInt : Int := -(2 ^ 63)

/-- Largest value of Go's `int`. -/
def maxInt : Int := 2 ^ 63 - 1

/-- Two's-complement wrap-around of an exact integer into Go's `int`. -/
def wrapInt (x : Int) : Int := (x + 2 ^ 63) % 2 ^ 64 - 2 ^ 63

/-- Instants of `time.Time`: nanoseconds since the zero `time.Time`. -/
abbrev Time := Int

/-- The value `time.Time{}`. -/
def zeroTime : Time := 0

/-- Method `Time.IsZero`. -/
def Time.IsZero (t : Time) : Bool := decide (t = 0)

/-- Method `Time.Before`. -/
def Time.Before (t u : Time) : Bool := decide (t < u)

/-- Method `Time.Add`. -/
def Time.Add (t : Time) (d : Int) : Time := t + d

/-- Smallest `time.Duration` (an `int64` of nanoseconds). -/
def minDuration : Int := -(2 ^ 63)

/-- Largest `time.Duration`. -/
def maxDuration : Int := 2 ^ 63 - 1

/-- One second as a `time.Duration`. -/
def second : Int := 1000000000

/-- The instant 1970-01-01 00:00:00 UTC: 62135596800 seconds after the zero
`time.Time`.  The system clock read by `time.Now` does not show an earlier
instant. -/
def unixEpoch : Time := 62135596800 * 1000000000

/-! `strconv.Atoi` and `strconv.Itoa` -/

/-- Byte strings (`[]byte`, and `string` where it is parsed). -/
abbrev Bytes := List Nat

/-- Decimal digits of a natural number, most significant first, as ASCII
codes; the first argument bounds the number of digits produced. -/
def formatNat : Nat → Nat → Bytes
  | 0, _ => []
  | fuel + 1, n =>
    if n < 10 then [48 + n] else formatNat fuel (n / 10) ++ [48 + n % 10]

/-- The function `strconv.Itoa`: an optional `-` followed by the decimal
digits without leading zeros. -/
def Itoa (i : Int) : Bytes :=
  if i < 0 then 45 :: formatNat (i.natAbs + 1) i.natAbs
  else formatNat (i.natAbs + 1) i.natAbs

/-- Value of a string of ASCII decimal digits read after the accumulated
value `acc`; `none` when a byte is not a digit. -/
def parseDigits : Bytes → Nat → Option Nat
  | [], acc => some acc
  | c :: cs, acc =>
    if 48 ≤ c ∧ c ≤ 57 then parseDigits cs (acc * 10 + (c - 48)) else none

/-- Unsigned part of `strconv.Atoi`: at least one digit, digits only. -/
def parseUint (s : Bytes) : Option Nat :=
  match s with
  | [] => none
  | _ :: _ => parseDigits s 0

/-- The function `strconv.Atoi` of the Go standard library (base 10, result of
type `int`): an optional sign, then one or more decimal digits, the value
within the `int` range.  The result `none` stands for a non-nil error, either
of syntax or of range; the callers only test the error against nil. -/
def Atoi (s : Bytes) : Option Int :=
  match s with
  | [] => none
  | 43 :: rest =>
    match parseUint rest with
    | some n => if (n : Int) ≤ maxInt then some (n : Int) else none
    | none => none
  | 45 :: rest =>
    match parseUint rest with
    | some n => if -(n : Int) ≥ minInt then some (-(n : Int)) else none
    | none => none
  | _ =>
    match parseUint s with
    | some n => if (n : Int) ≤ maxInt then some (n : Int) else none
    | none => none

/-! Data model -/

/-- Errors of the memory backend. -/
inductive CacheError where
  | ErrNotFound
  deriving DecidableEq, Repr

/-- The struct `locmemCacheItem`. -/
structure locmemCacheItem where
  expiration : Time
  value : Bytes
  deriving DecidableEq, Repr

/-- Method `locmemCacheItem.IsValid`. -/
def locmemCacheItem.IsValid (l : locmemCacheItem) (t : Time) : Bool :=
  if l.expiration.IsZero then true else t.Before l.expiration

/-- One database: a Go `map[string]*locmemCacheItem`. -/
abbrev Database := String → Option locmemCacheItem

/-- The package variable `storage`: a Go map from database names to
databases. -/
abbrev Storage := String → Option Database

/-- The empty map literal. -/
def emptyDatabase : Database := fun _ => none

/-- The storage built by `init`. -/
def initStorage : Storage := fun _ => none

/-- Map assignment `db[key] = item`. -/
def Database.set (db : Database) (key : String) (item : locmemCacheItem) : Database :=
  fun k => if k = key then some item else db k

/-- Builtin `delete(db, key)`. -/
def Database.delete (db : Database) (key : String) : Database :=
  fun k => if k = key then none else db k

/-- Map assignment `storage[database] = db`; also the write-through of a
mutation of the database `db` that `storage[database]` refers to. -/
def Storage.set (storage : Storage) (database : String) (db : Database) : Storage :=
  fun d => if d = database then some db else storage d

/-- The item stored under `key` in the database `database`, if any. -/
def Storage.item (storage : Storage) (database key : String) : Option locmemCacheItem :=
  match storage database with
  | some db => db key
  | none => none

/-- The struct `locmemSettings`. -/
structure locmemSettings where
  database : String
  expiration : Int
  deriving DecidableEq, Repr

/-- The struct `locmemCache`. -/
structure locmemCache where
  settings : locmemSettings
  deriving DecidableEq, Repr

/-- The constant `DEFAULT_EXPIRATION`. -/
def DEFAULT_EXPIRATION : Int := 0 * second

/-- The constant `LOCMEM_DEFAULT_DATABASE`. -/
def LOCMEM_DEFAULT_DATABASE : String := "default"

/-! Operations -/

/-- The function `getDatabase`: look the database up, creating an empty one on
first reference.  Returns the storage and the database found or created. -/
def getDatabase (database : String) (storage : Storage) : Storage × Database :=
  match storage database with
  | some result => (storage, result)
  | none => (storage.set database emptyDatabase, emptyDatabase)

/-- Method `locmemCache.Delete`. -/
def locmemCache.Delete (l : locmemCache) (key : String) (storage : Storage) :
    Storage × Option CacheError :=
  let (storage, db) := getDatabase l.settings.database storage
  match db key with
  | some _ => (storage.set l.settings.database (db.delete key), none)
  | none => (storage, some CacheError.ErrNotFound)

/-- Method `locmemCache.Get`, run when `time.Now()` is `now`. -/
def locmemCache.Get (l : locmemCache) (key : String) (now : Time) (storage : Storage) :
    Storage × Bytes × Option CacheError :=
  let (storage, db) := getDatabase l.settings.database storage
  match db key with
  | some item =>
    if item.expiration.IsZero then (storage, item.value, none)
    else if now.Before item.expiration then (storage, item.value, none)
    else ((l.Delete key storage).1, [], some CacheError.ErrNotFound)
  | none => (storage, [], some CacheError.ErrNotFound)

/-- Method `locmemCache.Set`, run when `time.Now()` is `now`; `expiration` is
the variadic argument.  More than one expiration panics. -/
def locmemCache.Set (l : locmemCache) (key : String) (value : Bytes) (expiration : List Int)
    (now : Time) (storage : Storage) : Option (Storage × Option CacheError) :=
  let (storage, db) := getDatabase l.settings.database storage
  match expiration with
  | [] =>
    some (storage.set l.settings.database
      (db.set key { expiration := zeroTime, value := value }), none)
  | [d] =>
    some (storage.set l.settings.database
      (db.set key { expiration := now.Add d, value := value }), none)
  | _ :: _ :: _ => none

/-- Method `locmemCache.Incr`; `num` is the variadic argument. -/
def locmemCache.Incr (l : locmemCache) (key : String) (num : List Int) (storage : Storage) :
    Storage × Int × Option CacheError :=
  let (storage, db) := getDatabase l.settings.database storage
  let result : Int := match num with
    | n :: _ => n
    | [] => 1
  let expiration : Time := zeroTime
  let result : Int := match db key with
    | some item =>
      match Atoi item.value with
      | some numValue => wrapInt (numValue + result)
      | none => result
    | none => result
  (storage.set l.settings.database
    (db.set key { expiration := expiration, value := Itoa result }), result, none)

/-- Method `locmemCache.Decr`; `num` is the variadic argument. -/
def locmemCache.Decr (l : locmemCache) (key : String) (num : List Int) (storage : Storage) :
    Storage × Int × Option CacheError :=
  let (storage, db) := getDatabase l.settings.database storage
  let result : Int := match num with
    | n :: _ => n
    | [] => 1
  let expiration : Time := zeroTime
  let result : Int := match db key with
    | some item =>
      match Atoi item.value with
      | some numValue => wrapInt (numValue - result)
      | none => result
    | none => result
  (storage.set l.settings.database
    (db.set key { expiration := expiration, value := Itoa result }), result, none)

/-- Method `locmemCache.Close`. -/
def locmemCache.Close (_l : locmemCache) : Option CacheError := none

/-- The cache used in the concrete examples: database `default`, default
settings. -/
def demoCache : locmemCache :=
  { settings := { database := LOCMEM_DEFAULT_DATABASE, expiration := DEFAULT_EXPIRATION } }

/-- The storage after `db := getDatabase(database)` and `db[key] = item`, the
write that ends `Set`, `Incr` and `Decr`. -/
def writeItem (l : locmemCache) (key : String) (item : locmemCacheItem) (s : Storage) :
    Storage :=
  (getDatabase l.settings.database s).1.set l.settings.database
    ((getDatabase l.settings.database s).2.set key item)

/-- The amount a counter moves by: the first variadic argument, or 1. -/
def delta (num : List Int) : Int :=
  match num with
  | n :: _ => n
  | [] => 1

/-- A storage whose database `default` holds, under `counter`, the text
`9223372036854775807` of the largest `int`, never expiring. -/
def maxCounterStorage : Storage :=
  initStorage.set "default" (emptyDatabase.set "counter"
    { expiration := zeroTime,
      value := [57, 50, 50, 51, 51, 55, 50, 48, 51, 54, 56, 53, 52, 55, 55, 53, 56, 48, 55] })

/-- A storage whose database `default` holds, under `counter`, the text
`9223372036854775808` of the integer one past the largest `int`. -/
def bigCounterStorage : Storage :=
  initStorage.set "default" (emptyDatabase.set "counter"
    { expiration := zeroTime,
      value := [57, 50, 50, 51, 51, 55, 50, 48, 51, 54, 56, 53, 52, 55, 55, 53, 56, 48, 56] })

/-- A storage whose database `default` holds, under `counter`, the text `41`,
expiring one second after the Unix epoch. -/
def counterStorage : Storage :=
  initStorage.set "default" (emptyDatabase.set "counter"
    { expiration := unixEpoch + second, value := [52, 49] })

/-- A storage whose database `default` holds, under `counter`, the text
`abc`. -/
def textStorage : Storage :=
  initStorage.set "default" (emptyDatabase.set "counter"
    { expiration := zeroTime, value := [97, 98, 99] })

/-- A storage whose database `default` holds, under `k`, the one-byte value
`v`, expiring one second after the Unix epoch: what `Set("k", "v", time.Second)`
run at the Unix epoch leaves. -/
def expiringStorage : Storage :=
  initStorage.set "default" (emptyDatabase.set "k"
    { expiration := unixEpoch + second, value := [118] })

/-- A cache on the database `default` whose settings carry a default
expiration of ten seconds. -/
def tenSecondCache : locmemCache :=
  { settings := { database := LOCMEM_DEFAULT_DATABASE, expiration := 10 * second } }

/-- Two storages hold the same items under every database name and key.  A
database name that was never referenced and an empty database hold the same
items. -/
def Storage.sameItems (s s' : Storage) : Prop :=
  ∀ d k, s'.item d k = s.item d k

/-! `strings.TrimSpace` and `strings.Trim`

A Go `string` that is read as text is a Lean `String`: a sequence of Unicode
code points, compared code point by code point, which is the byte order of
its UTF-8 encoding. -/

/-- The function `unicode.IsSpace`: the white space code points. -/
def isSpace (c : Char) : Bool :=
  let n := c.toNat
  decide (n = 9 ∨ n = 10 ∨ n = 11 ∨ n = 12 ∨ n = 13 ∨ n = 32 ∨ n = 133 ∨ n = 160 ∨
    n = 5760 ∨ (8192 ≤ n ∧ n ≤ 8202) ∨ n = 8232 ∨ n = 8233 ∨ n = 8239 ∨ n = 8287 ∨
    n = 12288)

/-- The function `strings.TrimFunc` on the code points: the leading, then the
trailing code points that satisfy `f` are removed. -/
def trimFunc (f : Char → Bool) (s : List Char) : List Char :=
  (s.dropWhile f).rdropWhile f

/-- The function `strings.TrimSpace`. -/
def TrimSpace (s : String) : String := String.mk (trimFunc isSpace s.data)

/-- The function `strings.Trim`: the leading and trailing code points contained
in `cutset` are removed. -/
def Trim (s cutset : String) : String :=
  String.mk (trimFunc (fun c => cutset.data.contains c) s.data)

/-- The list `core` is `s` with its leading and its trailing run of elements
satisfying `f` removed: `s` is `core` between two runs of such elements, and
`core` neither starts nor ends with one. -/
def IsTrimOf (f : Char → Bool) (core s : List Char) : Prop :=
  ∃ l r, s = l ++ core ++ r ∧ (∀ c ∈ l, f c = true) ∧ (∀ c ∈ r, f c = true) ∧
    (∀ c, core.head? = some c → f c = false) ∧
    (∀ c, core.getLast? = some c → f c = false)

/-- The database name in the words of the specification: the path with the
surrounding white space and then all leading and trailing `/` removed,
or the literal `default` when nothing is left. -/
def IsDatabaseNameOf (name path : String) : Prop :=
  ∃ mid core, IsTrimOf isSpace mid path.data ∧
    IsTrimOf (fun c => decide (c = '/')) core mid ∧
    name = if core = [] then "default" else String.mk core

/-! Errors, option sources and descriptors

The package `github.com/phonkee/godsn` is outside this repository: its parsers
are parameters of the functions that call them, and its values are the
records of what this repository reads of them. -/

/-- Go `error` values of the facade and of the drivers. -/
inductive GoError where
  /-- The error `fmt.Errorf("gocacher: unknown driver %q (forgotten import?)", name)`. -/
  | unknownDriver (name : String)
  /-- The error `fmt.Errorf("Connection %s is unknown.", connection)`. -/
  | unknownConnection
  /-- An error made outside this package (`godsn`, `time`, a driver). -/
  | external (msg : String)
  deriving DecidableEq, Repr

/-- What is read of a `*godsn.DSNValues`: its typed accessors, each taking the
name of the option and the default; `Get` is the text stored under a name
(empty when there is none). -/
structure DSNValues where
  Get : String → String
  GetInt : String → Int → Int
  GetSeconds : String → Int → Int
  GetString : String → String → String

/-- What is read of a `*godsn.DSN`: the scheme, the path, and the embedded
`*DSNValues`. -/
structure DSN where
  Scheme : String
  Path : String
  values : DSNValues

/-- The constant `URL_PARAM_POOL_MAX_ACTIVE`. -/
def URL_PARAM_POOL_MAX_ACTIVE : String := "pool_max_active"

/-- The constant `URL_PARAM_POOL_MAX_IDLE`. -/
def URL_PARAM_POOL_MAX_IDLE : String := "pool_max_idle"

/-- The constant `URL_PARAM_POOL_IDLE_TIMEOUT`. -/
def URL_PARAM_POOL_IDLE_TIMEOUT : String := "pool_idle_timeout"

/-- The constant `URL_PARAM_EXPIRATION`. -/
def URL_PARAM_EXPIRATION : String := "expiration"

/-- The constant `URL_PARAM_PREFIX`. -/
def URL_PARAM_PREFIX : String := "prefix"

/-- The constant `DEFAULT_POOL_MAX_ACTIVE`. -/
def DEFAULT_POOL_MAX_ACTIVE : Int := 20

/-- The constant `DEFAULT_POOL_MAX_IDLE`. -/
def DEFAULT_POOL_MAX_IDLE : Int := 10

/-- The constant `DEFAULT_POOL_IDLE_TIMEOUT`, 200 milliseconds. -/
def DEFAULT_POOL_IDLE_TIMEOUT : Int := 200 * 1000000

/-- The constant `DEFAULT_PREFIX`. -/
def DEFAULT_PREFIX : String := ""

/-! The memory backend's settings and driver -/

/-- The function `newLocmemSettings`.  `Parse` is `godsn.Parse` and
`ParseDuration` is `time.ParseDuration`.  The code tests `err`, which is nil at
that point, instead of `errParse`: after a failed parse it goes on and calls a
method of the nil `values`, which panics (`none`). -/
def newLocmemSettings (Parse : String → Except GoError DSN)
    (ParseDuration : String → Except GoError Int) (dsn : String) :
    Option (locmemSettings × Option GoError) :=
  match Parse dsn with
  | Except.error _ => none
  | Except.ok values =>
    let exp_param := values.values.GetString URL_PARAM_EXPIRATION ""
    let database :=
      let trimmed := Trim (TrimSpace values.Path) "/"
      if trimmed = "" then LOCMEM_DEFAULT_DATABASE else trimmed
    if exp_param = "" then
      some ({ database := database, expiration := DEFAULT_EXPIRATION }, none)
    else
      match ParseDuration exp_param with
      | Except.error err => some ({ database := "", expiration := 0 }, some err)
      | Except.ok expiration => some ({ database := database, expiration := expiration }, none)

/-- The function `newLocmemCache`. -/
def newLocmemCache (settings : locmemSettings) : locmemCache := { settings := settings }

/-- The struct `locmemDriver`. -/
structure locmemDriver where
  deriving DecidableEq, Repr

/-- Method `locmemDriver.Open`. -/
def locmemDriver.Open (_l : locmemDriver) (Parse : String → Except GoError DSN)
    (ParseDuration : String → Except GoError Int) (dsn : String) :
    Option (Option locmemCache × Option GoError) :=
  match newLocmemSettings Parse ParseDuration dsn with
  | none => none
  | some (_, some errSettings) => some (none, some errSettings)
  | some (settings, none) => some (some (newLocmemCache settings), none)

/-! The Redis backend's settings and driver (`redis.go`) -/

/-- The struct `PoolSettings`. -/
structure PoolSettings where
  MaxIdle : Int
  MaxActive : Int
  IdleTimeout : Int
  deriving DecidableEq, Repr

/-- The struct `RedisSettings`; `keyPrefix` is its field `prefix`. -/
structure RedisSettings where
  pool : PoolSettings
  expiration : Int
  keyPrefix : String
  deriving DecidableEq, Repr

/-- Method `RedisSettings.Prefixed`. -/
def RedisSettings.Prefixed (r : RedisSettings) (str : String) : String :=
  if r.keyPrefix = "" then str else r.keyPrefix ++ ":" ++ str

/-- The function `NewRedisSettings`. -/
def NewRedisSettings (values : DSNValues) : RedisSettings × Option GoError :=
  let settings : RedisSettings :=
    { pool := { MaxIdle := 10, MaxActive := 20, IdleTimeout := 200 },
      expiration := DEFAULT_EXPIRATION,
      keyPrefix := DEFAULT_PREFIX }
  let settings := { settings with pool := { settings.pool with
    MaxActive := values.GetInt URL_PARAM_POOL_MAX_ACTIVE DEFAULT_POOL_MAX_ACTIVE } }
  let settings := { settings with pool := { settings.pool with
    MaxIdle := values.GetInt URL_PARAM_POOL_MAX_IDLE DEFAULT_POOL_MAX_IDLE } }
  let settings := { settings with pool := { settings.pool with
    IdleTimeout := values.GetSeconds URL_PARAM_POOL_IDLE_TIMEOUT DEFAULT_POOL_IDLE_TIMEOUT } }
  let settings := { settings with
    expiration := values.GetSeconds URL_PARAM_EXPIRATION DEFAULT_EXPIRATION }
  let settings := { settings with
    keyPrefix := values.GetString URL_PARAM_PREFIX DEFAULT_PREFIX }
  (settings, none)

/-- The function `NewRedisSettingsFromQuery`; `ParseQuery` is
`godsn.ParseQuery`. -/
def NewRedisSettingsFromQuery (ParseQuery : String → Except GoError DSNValues)
    (query : String) : Option RedisSettings × Option GoError :=
  match ParseQuery query with
  | Except.error err => (none, some err)
  | Except.ok values =>
    let r := NewRedisSettings values
    (some r.1, r.2)

/-- What is read of a `redis.Pool`. -/
structure Pool where
  MaxIdle : Int
  MaxActive : Int
  IdleTimeout : Int
  deriving DecidableEq, Repr

/-- A connection handle, of Go type `interface{}`: nil, a `*redis.Pool`, or a
value of another type. -/
inductive Connection where
  | nil
  | redisPool (pool : Pool)
  | other (description : String)
  deriving DecidableEq, Repr

/-- The struct `RedisCache`. -/
structure RedisCache where
  pool : Pool
  expiration : Int
  settings : RedisSettings
  deriving DecidableEq, Repr

/-- The struct `RedisDriver`. -/
structure RedisDriver where
  deriving DecidableEq, Repr

/-- Method `RedisDriver.OpenConnection`; `settings` is the variadic argument.
Indexing the empty `settings` panics (`none`). -/
def RedisDriver.OpenConnection (_r : RedisDriver)
    (ParseQuery : String → Except GoError DSNValues)
    (connection : Connection) (settings : List String) :
    Option (Option RedisCache × Option GoError) :=
  match connection with
  | Connection.redisPool pool =>
    match settings with
    | [] => none
    | settings0 :: _ =>
      match NewRedisSettingsFromQuery ParseQuery settings0 with
      | (_, some err) => some (none, some err)
      | (none, none) => none
      | (some s, none) =>
        some (some { pool := pool, expiration := s.expiration, settings := s }, none)
  | _ => some (none, some GoError.unknownConnection)

/-- The struct `RedisDSN`: the embedded `*godsn.DSN` and the settings. -/
structure RedisDSN where
  dsn : DSN
  settings : RedisSettings

/-- The function `ParseRedisDSN`; `Parse` is `godsn.Parse`.  The error of
`NewRedisSettings` is discarded. -/
def ParseRedisDSN (Parse : String → Except GoError DSN) (dsn : String) :
    Option RedisDSN × Option GoError :=
  match Parse dsn with
  | Except.error err => (none, some err)
  | Except.ok d =>
    let settings := (NewRedisSettings d.values).1
    (some { dsn := d, settings := settings }, none)

/-- Method `RedisDSN.Pool`, without the `Dial` and `TestOnBorrow` callbacks. -/
def RedisDSN.Pool (r : RedisDSN) : Pool :=
  { MaxIdle := r.settings.pool.MaxIdle,
    MaxActive := r.settings.pool.MaxActive,
    IdleTimeout := r.settings.pool.IdleTimeout }

/-- Method `RedisDriver.Open`. -/
def RedisDriver.Open (_r : RedisDriver) (Parse : String → Except GoError DSN)
    (dsn : String) : Option (Option RedisCache × Option GoError) :=
  match ParseRedisDSN Parse dsn with
  | (_, some err) => some (none, some err)
  | (none, none) => none
  | (some d, none) =>
    some (some { pool := d.Pool, expiration := d.settings.expiration,
                 settings := d.settings }, none)

/-- Method `locmemDriver.OpenConnection`: it panics. -/
def locmemDriver.OpenConnection (_l : locmemDriver) (_connection : Connection)
    (_settings : List String) : Option (Option locmemCache × Option GoError) :=
  none

/-- An option source whose `pool_max_active` is the text `abc`, which is not a
number.  Its typed accessors have no error result; they hand back the
default. -/
def malformedValues : DSNValues :=
  { Get := fun name => if name = "pool_max_active" then "abc" else "",
    GetInt := fun _ d => d,
    GetSeconds := fun _ d => d,
    GetString := fun _ d => d }

/-! The driver registry and the facade (`cache.go`) -/

/-- The interface `CacheDriver`, as the record of its two methods; `C` is the
type of the caches it makes.  A method that panics returns `none`. -/
structure CacheDriver (C : Type) where
  Open : String → Option (Option C × Option GoError)
  OpenConnection : Connection → List String → Option (Option C × Option GoError)

/-- The package variable `drivers`: a Go map from names to drivers, each name
bound at most once. -/
abbrev Registry (C : Type) := AList (fun _ : String => CacheDriver C)

/-- The function `Register`; a nil `driver` is `none`.  Returns the registry
it leaves and the value it panics with, if it does. -/
def Register {C : Type} (name : String) (driver : Option (CacheDriver C))
    (drivers : Registry C) : Registry C × Option String :=
  match driver with
  | none => (drivers, some "gocacher: Register driver is nil")
  | some d =>
    match drivers.lookup name with
    | some _ => (drivers, some ("gocacher: Register called twice for driver " ++ name))
    | none => (drivers.insert name d, none)

/-- The function `sort.Strings`: the ascending rearrangement. -/
def sortStrings (list : List String) : List String :=
  list.insertionSort (fun a b => a ≤ b)

/-- The function `Drivers`.  The names are collected in the order in which the
map hands them out, then sorted.  Returns the registry it leaves and the
list. -/
def Drivers {C : Type} (drivers : Registry C) : Registry C × List String :=
  (drivers, sortStrings drivers.keys)

/-- The function `Open`; `Parse` is `godsn.Parse`. -/
def Open {C : Type} (Parse : String → Except GoError DSN) (drivers : Registry C)
    (dsn : String) : Option (Option C × Option GoError) :=
  match Parse dsn with
  | Except.error err => some (none, some err)
  | Except.ok d =>
    match drivers.lookup d.Scheme with
    | none => some (none, some (GoError.unknownDriver d.Scheme))
    | some di => di.Open dsn

/-- The function `OpenConnection`; `settings` is the variadic argument. -/
def OpenConnection {C : Type} (drivers : Registry C) (driver : String)
    (connection : Connection) (settings : List String) :
    Option (Option C × Option GoError) :=
  match drivers.lookup driver with
  | none => some (none, some (GoError.unknownDriver driver))
  | some di =>
    let urlSettings := match settings with
      | s :: _ => s
      | [] => ""
    di.OpenConnection connection [urlSettings]

/-- The values of the interface `Cache` made in this repository. -/
inductive Cache where
  | locmem (cache : locmemCache)
  | redis (cache : RedisCache)
  deriving DecidableEq, Repr

/-- A driver result seen through the interface `Cache`. -/
def asCache {A : Type} (wrap : A → Cache) (r : Option (Option A × Option GoError)) :
    Option (Option Cache × Option GoError) :=
  r.map fun p => (p.1.map wrap, p.2)

/-- The driver `&locmemDriver{}` as a `CacheDriver`. -/
def locmemCacheDriver (Parse : String → Except GoError DSN)
    (ParseDuration : String → Except GoError Int) : CacheDriver Cache :=
  { Open := fun dsn => asCache Cache.locmem (locmemDriver.Open {} Parse ParseDuration dsn),
    OpenConnection := fun connection settings =>
      asCache Cache.locmem (locmemDriver.OpenConnection {} connection settings) }

/-- The driver `&RedisDriver{}` as a `CacheDriver`. -/
def redisCacheDriver (Parse : String → Except GoError DSN)
    (ParseQuery : String → Except GoError DSNValues) : CacheDriver Cache :=
  { Open := fun dsn => asCache Cache.redis (RedisDriver.Open {} Parse dsn),
    OpenConnection := fun connection settings =>
      asCache Cache.redis (RedisDriver.OpenConnection {} ParseQuery connection settings) }

/-- The registry after the `init` functions of `locmem.go` and `redis.go`. -/
def initDrivers (Parse : String → Except GoError DSN)
    (ParseDuration : String → Except GoError Int)
    (ParseQuery : String → Except GoError DSNValues) : Registry Cache :=
  (Register "redis" (some (redisCacheDriver Parse ParseQuery))
    (Register "locmem" (some (locmemCacheDriver Parse ParseDuration)) ∅).1).1

/-- A stand-in for `godsn.Parse` that rejects every descriptor. -/
def rejectParse : String → Except GoError DSN :=
  fun _ => Except.error (GoError.external "parse")

/-- A stand-in for `time.ParseDuration` that rejects every text. -/
def rejectDuration : String → Except GoError Int :=
  fun _ => Except.error (GoError.external "duration")

/-- A stand-in for `godsn.ParseQuery` that rejects every query. -/
def rejectQuery : String → Except GoError DSNValues :=
  fun _ => Except.error (GoError.external "query")

/-- An option source without options: every typed accessor hands back the
default. -/
def emptyValues : DSNValues :=
  { Get := fun _ => "",
    GetInt := fun _ d => d,
    GetSeconds := fun _ d => d,
    GetString := fun _ d => d }

/-- A stand-in for `godsn.Parse` that knows two descriptors and rejects the
others. -/
def demoParse : String → Except GoError DSN :=
  fun dsn =>
    if dsn = "locmem:/// /cache/db// " then
      Except.ok { Scheme := "locmem", Path := " /cache/db// ", values := emptyValues }
    else if dsn = "nonexisting://" then
      Except.ok { Scheme := "nonexisting", Path := "", values := emptyValues }
    else Except.error (GoError.external "parse")

/-- From `s` to `s'` nothing changed but, at most, the item under `key` in the
database `database`: every other item is the same, and every database that
existed still exists. -/
def keepsOthers (database key : String) (s s' : Storage) : Prop :=
  (∀ d k, d ≠ database ∨ k ≠ key → s'.item d k = s.item d k) ∧
  (∀ d, s d ≠ none → s' d ≠ none)

/-- A cache on the database `other`. -/
def otherCache : locmemCache :=
  { settings := { database := "other", expiration := DEFAULT_EXPIRATION } }

/-- A storage whose database `default` holds, under `counter`, the text
`9223372036854775807` of the largest `int`, expiring one second after the Unix
epoch: what `Set("counter", "9223372036854775807", time.Second)` run at the
Unix epoch leaves. -/
def expiredMaxCounterStorage : Storage :=
  initStorage.set "default" (emptyDatabase.set "counter"
    { expiration := unixEpoch + second,
      value := [57, 50, 50, 51, 51, 55, 50, 48, 51, 54, 56, 53, 52, 55, 55, 53, 56, 48, 55] })

/-- A storage whose database `default` holds, under `counter`, the text
`9223372036854775808` of the integer one past the largest `int`, expiring one
second after the Unix epoch. -/
def expiredBigCounterStorage : Storage :=
  initStorage.set "default" (emptyDatabase.set "counter"
    { expiration := unixEpoch + second,
      value := [57, 50, 50, 51, 51, 55, 50, 48, 51, 54, 56, 53, 52, 55, 55, 53, 56, 48, 56] })

/-! Lemmas on the maps -/

theorem Storage.item_set (s : Storage) (d : String) (db : Database) (d' k : String) :
    (s.set d db).item d' k = if d' = d then db k else s.item d' k := by
  unfold Storage.item Storage.set
  by_cases h : d' = d <;> simp [h]

theorem Storage.item_set_same (s : Storage) (d : String) (db : Database) (k : String) :
    (s.set d db).item d k = db k := by
  simp [Storage.item_set]

theorem Storage.set_eq_self (s : Storage) (d : String) (db : Database) (h : s d = some db) :
    s.set d db = s := by
  funext d'
  unfold Storage.set
  by_cases hd : d' = d
  · simp [hd, h]
  · simp [hd]

theorem Storage.set_set (s : Storage) (d : String) (db db' : Database) :
    (s.set d db).set d db' = s.set d db' := by
  funext d'
  unfold Storage.set
  by_cases hd : d' = d <;> simp [hd]

theorem Database.set_same (db : Database) (k : String) (item : locmemCacheItem) :
    db.set k item k = some item := by
  simp [Database.set]

theorem Database.delete_same (db : Database) (k : String) :
    db.delete k k = none := by
  simp [Database.delete]

theorem Database.delete_eq_self (db : Database) (k : String) (h : db k = none) :
    db.delete k = db := by
  funext k'
  unfold Database.delete
  by_cases hk : k' = k
  · simp [hk, h]
  · simp [hk]

/-- What `getDatabase` returns: the database holds exactly the items stored
under its name, it is registered under its name afterwards, and no item of the
storage changes. -/
theorem getDatabase_spec (d : String) (s : Storage) :
    (getDatabase d s).1 d = some (getDatabase d s).2 ∧
    (∀ k, (getDatabase d s).2 k = s.item d k) ∧
    Storage.sameItems s (getDatabase d s).1 ∧
    (s d ≠ none → (getDatabase d s).1 = s) := by
  unfold getDatabase Storage.sameItems
  cases h : s d with
  | none =>
    refine ⟨by simp [Storage.set], ?_, ?_, by simp⟩
    · intro k; simp [Storage.item, h, emptyDatabase]
    · intro d' k
      simp only [Storage.item_set]
      by_cases hd : d' = d
      · simp [hd, Storage.item, h, emptyDatabase]
      · simp [hd]
  | some db =>
    refine ⟨by simp [h], ?_, ?_, by simp⟩
    · intro k; simp [Storage.item, h]
    · intro d' k; rfl

/-- When an item is stored under `(d, k)`, `getDatabase d` finds the database
and leaves the storage as it is. -/
theorem getDatabase_of_item {d k : String} {s : Storage} {item : locmemCacheItem}
    (h : s.item d k = some item) :
    ∃ db, s d = some db ∧ db k = some item ∧ getDatabase d s = (s, db) := by
  unfold Storage.item at h
  cases hs : s d with
  | none => simp [hs] at h
  | some db =>
    simp only [hs] at h
    exact ⟨db, rfl, h, by simp [getDatabase, hs]⟩

/-! Lemmas on `strconv` -/

theorem parseDigits_append (xs ys : Bytes) (a : Nat) :
    parseDigits (xs ++ ys) a = (parseDigits xs a).bind (parseDigits ys) := by
  induction xs generalizing a with
  | nil => simp [parseDigits]
  | cons c cs ih =>
    simp only [List.cons_append, parseDigits]
    split
    · exact ih _
    · rfl

theorem parseDigits_formatNat (fuel n : Nat) (h : n < fuel) :
    parseDigits (formatNat fuel n) 0 = some n := by
  induction fuel generalizing n with
  | zero => omega
  | succ fuel ih =>
    unfold formatNat
    split
    · simp only [parseDigits]
      have h1 : 48 ≤ 48 + n ∧ 48 + n ≤ 57 := by omega
      simp only [h1, and_self, if_true]
      congr 1
      omega
    · have hlt : n / 10 < fuel := by omega
      rw [parseDigits_append, ih _ hlt]
      simp only [Option.some_bind, parseDigits]
      have h1 : 48 ≤ 48 + n % 10 ∧ 48 + n % 10 ≤ 57 := by omega
      simp only [h1, and_self, if_true]
      congr 1
      omega

theorem formatNat_head (fuel n : Nat) (h : n < fuel) :
    ∃ c cs, formatNat fuel n = c :: cs ∧ 48 ≤ c ∧ c ≤ 57 := by
  induction fuel generalizing n with
  | zero => omega
  | succ fuel ih =>
    unfold formatNat
    split
    · exact ⟨48 + n, [], rfl, by omega, by omega⟩
    · have hlt : n / 10 < fuel := by omega
      obtain ⟨c, cs, hc, h1, h2⟩ := ih _ hlt
      exact ⟨c, cs ++ [48 + n % 10], by simp [hc], h1, h2⟩

/-- Reading back the text `strconv.Itoa` writes: `strconv.Atoi` accepts it and
returns the number, for every value of Go's `int`. -/
theorem Atoi_Itoa (n : Int) (hlo : minInt ≤ n) (hhi : n ≤ maxInt) :
    Atoi (Itoa n) = some n := by
  obtain ⟨c, cs, hc, h1, h2⟩ := formatNat_head (n.natAbs + 1) n.natAbs (by omega)
  have hp := parseDigits_formatNat (n.natAbs + 1) n.natAbs (by omega)
  have hu : parseUint (c :: cs) = some n.natAbs := by
    rw [hc] at hp
    simpa [parseUint] using hp
  unfold minInt at hlo
  unfold maxInt at hhi
  norm_num at hlo hhi
  unfold Itoa
  rw [hc]
  split
  · have hneg : -(n.natAbs : Int) = n := by omega
    simp only [Atoi, hu, minInt, hneg]
    norm_num
    intro hcontra
    omega
  · have e43 : c ≠ 43 := by omega
    have e45 : c ≠ 45 := by omega
    have hpos : (n.natAbs : Int) = n := by omega
    unfold Atoi
    split
    · simp_all
    · simp_all
    · simp_all
    · simp only [hu, maxInt, hpos]
      norm_num
      intro hcontra
      omega

/-! Lemmas on the operations -/

theorem Delete_absent (l : locmemCache) (key : String) (s : Storage)
    (h : s.item l.settings.database key = none) :
    l.Delete key s = ((getDatabase l.settings.database s).1, some CacheError.ErrNotFound) := by
  have hk := (getDatabase_spec l.settings.database s).2.1 key
  rw [h] at hk
  simp only [locmemCache.Delete, hk]

theorem Delete_present (l : locmemCache) (key : String) (s : Storage) (item : locmemCacheItem)
    (h : s.item l.settings.database key = some item) :
    ∃ db, s l.settings.database = some db ∧ db key = some item ∧
      l.Delete key s = (s.set l.settings.database (db.delete key), none) := by
  obtain ⟨db, hdb, hkey, hget⟩ := getDatabase_of_item h
  exact ⟨db, hdb, hkey, by simp only [locmemCache.Delete, hget, hkey]⟩

theorem Get_absent (l : locmemCache) (key : String) (t : Time) (s : Storage)
    (h : s.item l.settings.database key = none) :
    l.Get key t s = ((getDatabase l.settings.database s).1, [], some CacheError.ErrNotFound) := by
  have hk := (getDatabase_spec l.settings.database s).2.1 key
  rw [h] at hk
  simp only [locmemCache.Get, hk]

theorem Get_valid (l : locmemCache) (key : String) (t : Time) (s : Storage)
    (item : locmemCacheItem) (h : s.item l.settings.database key = some item)
    (hv : item.expiration = zeroTime ∨ t < item.expiration) :
    l.Get key t s = (s, item.value, none) := by
  obtain ⟨db, _, hkey, hget⟩ := getDatabase_of_item h
  simp only [locmemCache.Get, hget, hkey, Time.IsZero, Time.Before]
  rcases hv with hz | hlt
  · have hz' : item.expiration = 0 := hz
    simp [hz']
  · simp [hlt]

theorem Get_expired (l : locmemCache) (key : String) (t : Time) (s : Storage)
    (item : locmemCacheItem) (h : s.item l.settings.database key = some item)
    (hnz : item.expiration ≠ zeroTime) (hexp : item.expiration ≤ t) :
    l.Get key t s = ((l.Delete key s).1, [], some CacheError.ErrNotFound) := by
  obtain ⟨db, _, hkey, hget⟩ := getDatabase_of_item h
  have hnz' : ¬ item.expiration = 0 := hnz
  have hnlt : ¬ t < item.expiration := not_lt.mpr hexp
  simp only [locmemCache.Get, hget, hkey, Time.IsZero, Time.Before]
  simp [hnz', hnlt]

/-- After the database of the cache has been created, a failed lookup leaves
the storage exactly as it is. -/
theorem Get_absent_fixed (l : locmemCache) (key : String) (t : Time) (s : Storage)
    (h : s.item l.settings.database key = none) (hdb : s l.settings.database ≠ none) :
    l.Get key t s = (s, [], some CacheError.ErrNotFound) := by
  rw [Get_absent l key t s h, (getDatabase_spec l.settings.database s).2.2.2 hdb]

theorem Delete_absent_fixed (l : locmemCache) (key : String) (s : Storage)
    (h : s.item l.settings.database key = none) (hdb : s l.settings.database ≠ none) :
    l.Delete key s = (s, some CacheError.ErrNotFound) := by
  rw [Delete_absent l key s h, (getDatabase_spec l.settings.database s).2.2.2 hdb]

/-- The storage written by `Set`, `Incr` and `Decr`: the item is stored under
the key of the cache's database, which exists afterwards. -/
theorem stored_item (l : locmemCache) (key : String) (s : Storage) (item : locmemCacheItem) :
    let s1 := (getDatabase l.settings.database s).1.set l.settings.database
      ((getDatabase l.settings.database s).2.set key item)
    s1.item l.settings.database key = some item ∧ s1 l.settings.database ≠ none := by
  intro s1
  refine ⟨?_, ?_⟩
  · simp only [s1, Storage.item_set_same, Database.set_same]
  · simp [s1, Storage.set]

theorem Set_no_ttl (l : locmemCache) (key : String) (value : Bytes) (t0 : Time) (s : Storage) :
    l.Set key value [] t0 s =
      some ((getDatabase l.settings.database s).1.set l.settings.database
        ((getDatabase l.settings.database s).2.set key
          { expiration := zeroTime, value := value }), none) := by
  simp only [locmemCache.Set]

theorem Set_ttl (l : locmemCache) (key : String) (value : Bytes) (ttl : Int) (t0 : Time)
    (s : Storage) :
    l.Set key value [ttl] t0 s =
      some ((getDatabase l.settings.database s).1.set l.settings.database
        ((getDatabase l.settings.database s).2.set key
          { expiration := t0 + ttl, value := value }), none) := by
  simp only [locmemCache.Set, Time.Add]

theorem writeItem_item (l : locmemCache) (key : String) (item : locmemCacheItem)
    (s : Storage) :
    (writeItem l key item s).item l.settings.database key = some item :=
  (stored_item l key s item).1

theorem writeItem_frame (l : locmemCache) (key : String) (item : locmemCacheItem)
    (s : Storage) (d k : String) (h : d ≠ l.settings.database ∨ k ≠ key) :
    (writeItem l key item s).item d k = s.item d k := by
  unfold writeItem
  rw [Storage.item_set]
  by_cases hd : d = l.settings.database
  · have hk : k ≠ key := by
      rcases h with h | h
      · exact absurd hd h
      · exact h
    simp only [hd, if_true, Database.set, hk, if_false]
    exact (getDatabase_spec l.settings.database s).2.1 k
  · simp only [hd, if_false]
    exact (getDatabase_spec l.settings.database s).2.2.1 d k

theorem wrapInt_of_inRange (x : Int) (hlo : minInt ≤ x) (hhi : x ≤ maxInt) :
    wrapInt x = x := by
  unfold minInt at hlo
  unfold maxInt at hhi
  unfold wrapInt
  norm_num at hlo hhi ⊢
  omega

theorem Incr_absent (l : locmemCache) (key : String) (num : List Int) (s : Storage)
    (h : s.item l.settings.database key = none) :
    l.Incr key num s =
      (writeItem l key { expiration := zeroTime, value := Itoa (delta num) } s,
        delta num, none) := by
  have hk := (getDatabase_spec l.settings.database s).2.1 key
  rw [h] at hk
  cases num <;> simp only [locmemCache.Incr, hk, writeItem, delta]

theorem Decr_absent (l : locmemCache) (key : String) (num : List Int) (s : Storage)
    (h : s.item l.settings.database key = none) :
    l.Decr key num s =
      (writeItem l key { expiration := zeroTime, value := Itoa (delta num) } s,
        delta num, none) := by
  have hk := (getDatabase_spec l.settings.database s).2.1 key
  rw [h] at hk
  cases num <;> simp only [locmemCache.Decr, hk, writeItem, delta]

theorem Incr_unparsed (l : locmemCache) (key : String) (num : List Int) (s : Storage)
    (item : locmemCacheItem) (h : s.item l.settings.database key = some item)
    (hp : Atoi item.value = none) :
    l.Incr key num s =
      (writeItem l key { expiration := zeroTime, value := Itoa (delta num) } s,
        delta num, none) := by
  have hk := (getDatabase_spec l.settings.database s).2.1 key
  rw [h] at hk
  cases num <;> simp only [locmemCache.Incr, hk, hp, writeItem, delta]

theorem Decr_unparsed (l : locmemCache) (key : String) (num : List Int) (s : Storage)
    (item : locmemCacheItem) (h : s.item l.settings.database key = some item)
    (hp : Atoi item.value = none) :
    l.Decr key num s =
      (writeItem l key { expiration := zeroTime, value := Itoa (delta num) } s,
        delta num, none) := by
  have hk := (getDatabase_spec l.settings.database s).2.1 key
  rw [h] at hk
  cases num <;> simp only [locmemCache.Decr, hk, hp, writeItem, delta]

theorem Incr_parsed (l : locmemCache) (key : String) (num : List Int) (s : Storage)
    (item : locmemCacheItem) (n : Int) (h : s.item l.settings.database key = some item)
    (hp : Atoi item.value = some n) :
    l.Incr key num s =
      (writeItem l key { expiration := zeroTime, value := Itoa (wrapInt (n + delta num)) } s,
        wrapInt (n + delta num), none) := by
  have hk := (getDatabase_spec l.settings.database s).2.1 key
  rw [h] at hk
  cases num <;> simp only [locmemCache.Incr, hk, hp, writeItem, delta]

theorem Decr_parsed (l : locmemCache) (key : String) (num : List Int) (s : Storage)
    (item : locmemCacheItem) (n : Int) (h : s.item l.settings.database key = some item)
    (hp : Atoi item.value = some n) :
    l.Decr key num s =
      (writeItem l key { expiration := zeroTime, value := Itoa (wrapInt (n - delta num)) } s,
        wrapInt (n - delta num), none) := by
  have hk := (getDatabase_spec l.settings.database s).2.1 key
  rw [h] at hk
  cases num <;> simp only [locmemCache.Decr, hk, hp, writeItem, delta]

/-- Whatever is stored, `Incr` returns no error and stores the text of the
number it returns, with the zero expiration. -/
theorem Incr_stores (l : locmemCache) (key : String) (num : List Int) (s : Storage) :
    l.Incr key num s =
      (writeItem l key { expiration := zeroTime, value := Itoa (l.Incr key num s).2.1 } s,
        (l.Incr key num s).2.1, none) := by
  cases h : s.item l.settings.database key with
  | none => rw [Incr_absent l key num s h]
  | some item =>
    cases hp : Atoi item.value with
    | none => rw [Incr_unparsed l key num s item h hp]
    | some n => rw [Incr_parsed l key num s item n h hp]

/-- Whatever is stored, `Decr` returns no error and stores the text of the
number it returns, with the zero expiration. -/
theorem Decr_stores (l : locmemCache) (key : String) (num : List Int) (s : Storage) :
    l.Decr key num s =
      (writeItem l key { expiration := zeroTime, value := Itoa (l.Decr key num s).2.1 } s,
        (l.Decr key num s).2.1, none) := by
  cases h : s.item l.settings.database key with
  | none => rw [Decr_absent l key num s h]
  | some item =>
    cases hp : Atoi item.value with
    | none => rw [Decr_unparsed l key num s item h hp]
    | some n => rw [Decr_parsed l key num s item n h hp]

/-! The claims -/

/-- C1. Round trip of the memory backend: from every storage, for every cache
(hence every database name), key and value, `Set(key, value)` without an
expiration returns no error, and a `Get(key)` run next, whatever the time,
returns exactly `value` and no error (and leaves the storage as `Set` left
it). -/
theorem set_get_round_trip (l : locmemCache) (key : String) (value : Bytes) (t0 : Time)
    (s : Storage) :
    ∃ s1, l.Set key value [] t0 s = some (s1, none) ∧
      ∀ t, l.Get key t s1 = (s1, value, none) := by
  refine ⟨_, Set_no_ttl l key value t0 s, ?_⟩
  intro t
  have h := (stored_item l key s { expiration := zeroTime, value := value }).1
  exact Get_valid l key t _ _ h (Or.inl rfl)

/-- C2. Expiry of the memory backend: after `Set(key, value, ttl)` at time
`t0` (any `time.Duration` `ttl`, the clock not reading before 1970), a
`Get(key)` at a time strictly before `t0 + ttl` returns `value`; a `Get(key)`
at any time `t ≥ t0 + ttl` fails with `ErrNotFound` and removes the item, and
from then on every `Get(key)` fails with `ErrNotFound` and changes nothing, as
does a `Get(key)` on any storage in which the key is still absent. -/
theorem set_get_expiry (l : locmemCache) (key : String) (value : Bytes) (ttl : Int)
    (t0 : Time) (s : Storage)
    (httl : minDuration ≤ ttl ∧ ttl ≤ maxDuration) (hclock : unixEpoch ≤ t0) :
    ∃ s1, l.Set key value [ttl] t0 s = some (s1, none) ∧
      (∀ t, t < t0 + ttl → l.Get key t s1 = (s1, value, none)) ∧
      (∀ t, t0 + ttl ≤ t →
        ∃ s2, l.Get key t s1 = (s2, [], some CacheError.ErrNotFound) ∧
          s2.item l.settings.database key = none ∧
          (∀ t', l.Get key t' s2 = (s2, [], some CacheError.ErrNotFound)) ∧
          (∀ s3 t', s3.item l.settings.database key = none →
            (l.Get key t' s3).2 = ([], some CacheError.ErrNotFound))) := by
  refine ⟨_, Set_ttl l key value ttl t0 s, ?_, ?_⟩
  · intro t ht
    have h := (stored_item l key s { expiration := t0 + ttl, value := value }).1
    exact Get_valid l key t _ _ h (Or.inr ht)
  · intro t ht
    have h := (stored_item l key s { expiration := t0 + ttl, value := value }).1
    have hnz : (t0 + ttl : Int) ≠ zeroTime := by
      have h1 := httl.1
      have h2 : (62135596800 * 1000000000 : Int) ≤ t0 := hclock
      unfold minDuration at h1
      norm_num at h1
      intro h0
      have h0' : (t0 : Int) + ttl = 0 := h0
      linarith
    obtain ⟨db, hdb, _, hdel⟩ := Delete_present l key _ _ h
    have hget := Get_expired l key t _ _ h hnz ht
    rw [hdel] at hget
    have habs : (Storage.set
        ((getDatabase l.settings.database s).1.set l.settings.database
          ((getDatabase l.settings.database s).2.set key
            { expiration := t0 + ttl, value := value }))
        l.settings.database (db.delete key)).item l.settings.database key = none := by
      rw [Storage.item_set_same, Database.delete_same]
    refine ⟨_, hget, habs, ?_, ?_⟩
    · intro t'
      exact Get_absent_fixed l key t' _ habs (by simp [Storage.set])
    · intro s3 t' h3
      rw [Get_absent l key t' s3 h3]

/-- A run of C2: one second of life set at the Unix epoch on the fresh
storage. -/
theorem set_get_expiry_witness :
    (minDuration ≤ second ∧ second ≤ maxDuration) ∧ unixEpoch ≤ unixEpoch ∧
    ∃ s1, demoCache.Set "k" [118] [second] unixEpoch initStorage = some (s1, none) ∧
      (∀ t, t < unixEpoch + second → demoCache.Get "k" t s1 = (s1, [118], none)) ∧
      (∀ t, unixEpoch + second ≤ t →
        ∃ s2, demoCache.Get "k" t s1 = (s2, [], some CacheError.ErrNotFound) ∧
          s2.item demoCache.settings.database "k" = none ∧
          (∀ t', demoCache.Get "k" t' s2 = (s2, [], some CacheError.ErrNotFound)) ∧
          (∀ s3 t', s3.item demoCache.settings.database "k" = none →
            (demoCache.Get "k" t' s3).2 = ([], some CacheError.ErrNotFound))) :=
  ⟨by decide, by decide,
    set_get_expiry demoCache "k" [118] second unixEpoch initStorage (by decide) (by decide)⟩

/-- C3, as stated, fails on the code.  With the text of the largest `int`
stored, `Incr(key, 1)` wraps around to the smallest `int` instead of returning
`n + 1`; with the text of an integer beyond the `int` range stored,
`strconv.Atoi` fails and `Incr(key, 1)` returns `1`. -/
theorem counter_arithmetic_counterexample :
    (maxCounterStorage.item "default" "counter" =
        some { expiration := zeroTime, value := Itoa 9223372036854775807 } ∧
      (demoCache.Incr "counter" [1] maxCounterStorage).2 = (-9223372036854775808, none) ∧
      (demoCache.Incr "counter" [1] maxCounterStorage).2.1 ≠ 9223372036854775807 + 1) ∧
    (bigCounterStorage.item "default" "counter" =
        some { expiration := zeroTime, value := Itoa 9223372036854775808 } ∧
      (demoCache.Incr "counter" [1] bigCounterStorage).2 = (1, none) ∧
      (demoCache.Incr "counter" [1] bigCounterStorage).2.1 ≠ 9223372036854775808 + 1) := by
  decide

/-- C3, amended. When the value stored under `key` is the base-10 text of an
integer `n` of the `int` range, `Incr(key, d)` returns `n + d` and
`Decr(key, d)` returns `n - d` (`d = 1` when omitted) whenever that number is
in the `int` range too, with no error, and the storage then holds the base-10
text of the returned number under `key`.  Starting from an absent key,
`Incr(key)`, `Incr(key, 10)`, `Decr(key)`, `Decr(key, 5)` return 1, 11, 10,
5. -/
theorem counter_arithmetic (l : locmemCache) (key : String) (s : Storage)
    (item : locmemCacheItem) (n d : Int)
    (hitem : s.item l.settings.database key = some item)
    (hval : item.value = Itoa n) (hn : minInt ≤ n ∧ n ≤ maxInt) :
    (minInt ≤ n + d ∧ n + d ≤ maxInt →
      (l.Incr key [d] s).2 = (n + d, none) ∧
      (l.Incr key [d] s).1.item l.settings.database key =
        some { expiration := zeroTime, value := Itoa (n + d) }) ∧
    (minInt ≤ n + 1 ∧ n + 1 ≤ maxInt →
      (l.Incr key [] s).2 = (n + 1, none) ∧
      (l.Incr key [] s).1.item l.settings.database key =
        some { expiration := zeroTime, value := Itoa (n + 1) }) ∧
    (minInt ≤ n - d ∧ n - d ≤ maxInt →
      (l.Decr key [d] s).2 = (n - d, none) ∧
      (l.Decr key [d] s).1.item l.settings.database key =
        some { expiration := zeroTime, value := Itoa (n - d) }) ∧
    (minInt ≤ n - 1 ∧ n - 1 ≤ maxInt →
      (l.Decr key [] s).2 = (n - 1, none) ∧
      (l.Decr key [] s).1.item l.settings.database key =
        some { expiration := zeroTime, value := Itoa (n - 1) }) ∧
    (∀ s0 : Storage, s0.item l.settings.database key = none →
      (l.Incr key [] s0).2 = (1, none) ∧
      (l.Incr key [10] (l.Incr key [] s0).1).2 = (11, none) ∧
      (l.Decr key [] (l.Incr key [10] (l.Incr key [] s0).1).1).2 = (10, none) ∧
      (l.Decr key [5]
        (l.Decr key [] (l.Incr key [10] (l.Incr key [] s0).1).1).1).2 = (5, none)) := by
  have hp : Atoi item.value = some n := by rw [hval]; exact Atoi_Itoa n hn.1 hn.2
  refine ⟨?_, ?_, ?_, ?_, ?_⟩
  · intro hr
    rw [Incr_parsed l key [d] s item n hitem hp]
    simp only [delta, wrapInt_of_inRange _ hr.1 hr.2, writeItem_item, and_self]
  · intro hr
    rw [Incr_parsed l key [] s item n hitem hp]
    simp only [delta, wrapInt_of_inRange _ hr.1 hr.2, writeItem_item, and_self]
  · intro hr
    rw [Decr_parsed l key [d] s item n hitem hp]
    simp only [delta, wrapInt_of_inRange _ hr.1 hr.2, writeItem_item, and_self]
  · intro hr
    rw [Decr_parsed l key [] s item n hitem hp]
    simp only [delta, wrapInt_of_inRange _ hr.1 hr.2, writeItem_item, and_self]
  · intro s0 h0
    have e1 := Incr_absent l key [] s0 h0
    have i1 : (l.Incr key [] s0).1.item l.settings.database key =
        some { expiration := zeroTime, value := Itoa 1 } := by
      rw [e1]; exact writeItem_item l key _ s0
    have e2 := Incr_parsed l key [10] _ _ 1 i1 (by decide)
    have i2 : (l.Incr key [10] (l.Incr key [] s0).1).1.item l.settings.database key =
        some { expiration := zeroTime, value := Itoa 11 } := by
      rw [e2]; exact writeItem_item l key _ _
    have e3 := Decr_parsed l key [] _ _ 11 i2 (by decide)
    have i3 : (l.Decr key [] (l.Incr key [10] (l.Incr key [] s0).1).1).1.item
        l.settings.database key = some { expiration := zeroTime, value := Itoa 10 } := by
      rw [e3]; exact writeItem_item l key _ _
    have e4 := Decr_parsed l key [5] _ _ 10 i3 (by decide)
    refine ⟨?_, ?_, ?_, ?_⟩
    · rw [e1]; rfl
    · rw [e2]
      show (wrapInt (1 + delta [10]), (none : Option CacheError)) = (11, none)
      decide
    · rw [e3]
      show (wrapInt (11 - delta []), (none : Option CacheError)) = (10, none)
      decide
    · rw [e4]
      show (wrapInt (10 - delta [5]), (none : Option CacheError)) = (5, none)
      decide

/-- A run of C3 (amended): the text `41` is stored, and `Incr(key, 1)` returns
42 and stores the text `42`. -/
theorem counter_arithmetic_witness :
    counterStorage.item demoCache.settings.database "counter" =
        some { expiration := unixEpoch + second, value := [52, 49] } ∧
      ([52, 49] : Bytes) = Itoa 41 ∧ (minInt ≤ 41 ∧ (41 : Int) ≤ maxInt) ∧
      (demoCache.Incr "counter" [1] counterStorage).2 = (41 + 1, none) ∧
      (demoCache.Incr "counter" [1] counterStorage).1.item demoCache.settings.database
        "counter" = some { expiration := zeroTime, value := Itoa (41 + 1) } :=
  ⟨by decide, by decide, by decide,
    (counter_arithmetic demoCache "counter" counterStorage
      { expiration := unixEpoch + second, value := [52, 49] } 41 1
      (by decide) (by decide) (by decide)).1 (by decide)⟩

/-- C4 on the code: on an absent key `Incr(key, d)` returns `d`, and
`Decr(key, d)` returns `d` as well, not `-d` (`Decr(key)` returns 1); the
subtraction is only carried out when a stored number was parsed.  The key is
present afterwards, holding the text of the returned number. -/
theorem counters_on_absent_key (l : locmemCache) (key : String) (d : Int) (s : Storage)
    (h : s.item l.settings.database key = none) :
    (l.Incr key [d] s).2 = (d, none) ∧
    (l.Decr key [d] s).2 = (d, none) ∧
    (l.Decr key [] s).2 = (1, none) ∧
    (l.Incr key [d] s).1.item l.settings.database key =
      some { expiration := zeroTime, value := Itoa d } ∧
    (l.Decr key [d] s).1.item l.settings.database key =
      some { expiration := zeroTime, value := Itoa d } := by
  rw [Incr_absent l key [d] s h, Decr_absent l key [d] s h, Decr_absent l key [] s h]
  simp only [delta, writeItem_item, and_self]

/-- A run of C4 on the fresh storage: `Decr("counter")` returns 1, not -1, and
`Decr("counter", 5)` returns 5, not -5. -/
theorem counters_on_absent_key_witness :
    initStorage.item demoCache.settings.database "counter" = none ∧
    (demoCache.Decr "counter" [] initStorage).2 = (1, none) ∧
    (demoCache.Decr "counter" [] initStorage).2.1 ≠ -1 ∧
    (demoCache.Decr "counter" [5] initStorage).2 = (5, none) ∧
    (demoCache.Decr "counter" [5] initStorage).2.1 ≠ -5 :=
  have h := counters_on_absent_key demoCache "counter" 5 initStorage (by decide)
  ⟨by decide, h.2.2.1, by decide, h.2.1, by decide⟩

/-- C5. Counters on a value that is not a number: when the value stored under
`key` is not accepted by `strconv.Atoi`, `Incr(key, delta)` and
`Decr(key, delta)` (with or without the optional amount) return no error,
and return the same number and leave the same item under `key` as the same
call on a storage in which `key` is absent. -/
theorem counters_on_unparsed_value (l : locmemCache) (key : String) (num : List Int)
    (s s0 : Storage) (item : locmemCacheItem)
    (hitem : s.item l.settings.database key = some item)
    (hparse : Atoi item.value = none)
    (habsent : s0.item l.settings.database key = none) :
    ((l.Incr key num s).2.2 = none ∧
      (l.Incr key num s).2 = (l.Incr key num s0).2 ∧
      (l.Incr key num s).1.item l.settings.database key =
        (l.Incr key num s0).1.item l.settings.database key) ∧
    ((l.Decr key num s).2.2 = none ∧
      (l.Decr key num s).2 = (l.Decr key num s0).2 ∧
      (l.Decr key num s).1.item l.settings.database key =
        (l.Decr key num s0).1.item l.settings.database key) := by
  rw [Incr_unparsed l key num s item hitem hparse, Incr_absent l key num s0 habsent,
    Decr_unparsed l key num s item hitem hparse, Decr_absent l key num s0 habsent]
  simp only [writeItem_item, and_self]

/-- A run of C5: the text `abc` is stored, and `Incr(key, 7)` returns 7, as on
the fresh storage. -/
theorem counters_on_unparsed_value_witness :
    textStorage.item demoCache.settings.database "counter" =
        some { expiration := zeroTime, value := [97, 98, 99] } ∧
      Atoi [97, 98, 99] = none ∧
      initStorage.item demoCache.settings.database "counter" = none ∧
      (demoCache.Incr "counter" [7] textStorage).2 = (7, none) ∧
      (demoCache.Incr "counter" [7] textStorage).2 =
        (demoCache.Incr "counter" [7] initStorage).2 :=
  ⟨by decide, by decide, by decide, by decide,
    (counters_on_unparsed_value demoCache "counter" [7] textStorage initStorage
      { expiration := zeroTime, value := [97, 98, 99] }
      (by decide) (by decide) (by decide)).1.2.1⟩

/-- C6. Counters never expire: from every storage (whatever item, with
whatever expiration, is stored under `key`), when `Incr(key, d)` or
`Decr(key, d)` returns `r`, the item stored under `key` has the zero ("never")
expiration and holds the base-10 text of `r`, and a `Get(key)` at any time
returns that text with no error and leaves the storage as it is. -/
theorem counters_never_expire (l : locmemCache) (key : String) (num : List Int)
    (s : Storage) :
    ((l.Incr key num s).1.item l.settings.database key =
        some { expiration := zeroTime, value := Itoa (l.Incr key num s).2.1 } ∧
      ∀ t, l.Get key t (l.Incr key num s).1 =
        ((l.Incr key num s).1, Itoa (l.Incr key num s).2.1, none)) ∧
    ((l.Decr key num s).1.item l.settings.database key =
        some { expiration := zeroTime, value := Itoa (l.Decr key num s).2.1 } ∧
      ∀ t, l.Get key t (l.Decr key num s).1 =
        ((l.Decr key num s).1, Itoa (l.Decr key num s).2.1, none)) := by
  have hi : (l.Incr key num s).1.item l.settings.database key =
      some { expiration := zeroTime, value := Itoa (l.Incr key num s).2.1 } := by
    rw [congrArg Prod.fst (Incr_stores l key num s)]
    exact writeItem_item l key _ s
  have hd : (l.Decr key num s).1.item l.settings.database key =
      some { expiration := zeroTime, value := Itoa (l.Decr key num s).2.1 } := by
    rw [congrArg Prod.fst (Decr_stores l key num s)]
    exact writeItem_item l key _ s
  refine ⟨⟨hi, ?_⟩, ⟨hd, ?_⟩⟩
  · intro t
    exact Get_valid l key t _ _ hi (Or.inl rfl)
  · intro t
    exact Get_valid l key t _ _ hd (Or.inl rfl)

/-- C7. Delete and absent keys: `Delete(key)` returns no error exactly when an
item is stored under `key`; it then removes that item and no other, so that a
following `Get(key)` and a second `Delete(key)` both fail with `ErrNotFound`.
`Get` and `Delete` on an absent key fail with `ErrNotFound` and leave every
item of the storage as it is; the storage itself is the same afterwards once
the database of the cache has been referenced (the first reference creates it,
empty). -/
theorem delete_and_absent_keys (l : locmemCache) (key : String) (s : Storage) :
    ((l.Delete key s).2 = none ↔ ∃ item, s.item l.settings.database key = some item) ∧
    (∀ item, s.item l.settings.database key = some item →
      (l.Delete key s).1.item l.settings.database key = none ∧
      (∀ d k, d ≠ l.settings.database ∨ k ≠ key →
        (l.Delete key s).1.item d k = s.item d k) ∧
      (∀ t, l.Get key t (l.Delete key s).1 =
        ((l.Delete key s).1, [], some CacheError.ErrNotFound)) ∧
      l.Delete key (l.Delete key s).1 =
        ((l.Delete key s).1, some CacheError.ErrNotFound)) ∧
    (s.item l.settings.database key = none →
      (∀ t, (l.Get key t s).2 = ([], some CacheError.ErrNotFound)) ∧
      (l.Delete key s).2 = some CacheError.ErrNotFound ∧
      (∀ t, Storage.sameItems s (l.Get key t s).1) ∧
      Storage.sameItems s (l.Delete key s).1 ∧
      (s l.settings.database ≠ none →
        (∀ t, (l.Get key t s).1 = s) ∧ (l.Delete key s).1 = s)) := by
  refine ⟨?_, ?_, ?_⟩
  · cases h : s.item l.settings.database key with
    | none => rw [Delete_absent l key s h]; simp
    | some item =>
      obtain ⟨db, _, _, hdel⟩ := Delete_present l key s item h
      rw [hdel]; simp
  · intro item h
    obtain ⟨db, hdb, _, hdel⟩ := Delete_present l key s item h
    rw [hdel]
    have habs : (s.set l.settings.database (db.delete key)).item l.settings.database key
        = none := by
      rw [Storage.item_set_same, Database.delete_same]
    have hex : (s.set l.settings.database (db.delete key)) l.settings.database ≠ none := by
      simp [Storage.set]
    refine ⟨habs, ?_, ?_, ?_⟩
    · intro d k hne
      rw [Storage.item_set]
      by_cases hd : d = l.settings.database
      · have hk : k ≠ key := by
          rcases hne with hne | hne
          · exact absurd hd hne
          · exact hne
        simp only [hd, if_true, Database.delete, hk, if_false, Storage.item, hdb]
      · simp only [hd, if_false]
    · intro t
      exact Get_absent_fixed l key t _ habs hex
    · exact Delete_absent_fixed l key _ habs hex
  · intro h
    have hsame := (getDatabase_spec l.settings.database s).2.2.1
    refine ⟨?_, ?_, ?_, ?_, ?_⟩
    · intro t; rw [Get_absent l key t s h]
    · rw [Delete_absent l key s h]
    · intro t; rw [Get_absent l key t s h]; exact hsame
    · rw [Delete_absent l key s h]; exact hsame
    · intro hdb
      refine ⟨?_, ?_⟩
      · intro t; rw [Get_absent_fixed l key t s h hdb]
      · rw [Delete_absent_fixed l key s h hdb]

/-- A run of C7: the stored item `k` is deleted without error and a second
`Delete` fails; on the fresh storage `Delete` and `Get` fail. -/
theorem delete_and_absent_keys_witness :
    expiringStorage.item demoCache.settings.database "k" =
        some { expiration := unixEpoch + second, value := [118] } ∧
      (demoCache.Delete "k" expiringStorage).2 = none ∧
      (demoCache.Delete "k" (demoCache.Delete "k" expiringStorage).1).2 =
        some CacheError.ErrNotFound ∧
      initStorage.item demoCache.settings.database "k" = none ∧
      (demoCache.Delete "k" initStorage).2 = some CacheError.ErrNotFound ∧
      (demoCache.Get "k" unixEpoch initStorage).2 = ([], some CacheError.ErrNotFound) :=
  have h1 := delete_and_absent_keys demoCache "k" expiringStorage
  have h2 := delete_and_absent_keys demoCache "k" initStorage
  ⟨by decide,
    h1.1.mpr ⟨{ expiration := unixEpoch + second, value := [118] }, by decide⟩,
    congrArg Prod.snd
      ((h1.2.1 { expiration := unixEpoch + second, value := [118] } (by decide)).2.2.2),
    by decide, (h2.2.2 (by decide)).2.1, (h2.2.2 (by decide)).1 unixEpoch⟩

/-- C8, as stated, fails on the code: the item set at the Unix epoch with a
ttl of one second is no longer valid two seconds later, yet `Delete` then
returns no error (and removes the item), while on an absent key it fails with
`ErrNotFound`. -/
theorem delete_expired_counterexample :
    Option.map (fun r => (r.1.item "default" "k", r.2))
        (demoCache.Set "k" [118] [second] unixEpoch initStorage) =
      some (expiringStorage.item "default" "k", none) ∧
    expiringStorage.item "default" "k" =
      some { expiration := unixEpoch + second, value := [118] } ∧
    locmemCacheItem.IsValid { expiration := unixEpoch + second, value := [118] }
      (unixEpoch + 2 * second) = false ∧
    (demoCache.Delete "k" expiringStorage).2 = none ∧
    (demoCache.Delete "k" expiringStorage).2 ≠ some CacheError.ErrNotFound ∧
    (demoCache.Delete "k" initStorage).2 = some CacheError.ErrNotFound := by
  decide

/-- C8, amended. `Delete` does not look at the expiration: for every key whose
item has reached its expiration time (`now ≥ expiration`, expiration not
"never") and is still stored, `Delete(key)` returns no error and removes the
item.  `Delete(key)` fails with `ErrNotFound` for such a key only once the
item is gone, as after a `Get(key)` that observed the expiry. -/
theorem delete_ignores_expiration (l : locmemCache) (key : String) (s : Storage)
    (item : locmemCacheItem) (now : Time)
    (hitem : s.item l.settings.database key = some item)
    (hexpired : item.IsValid now = false) :
    (l.Delete key s).2 = none ∧
    (l.Delete key s).1.item l.settings.database key = none ∧
    (l.Delete key (l.Get key now s).1).2 = some CacheError.ErrNotFound ∧
    (l.Delete key (l.Delete key s).1).2 = some CacheError.ErrNotFound := by
  obtain ⟨db, hdb, _, hdel⟩ := Delete_present l key s item hitem
  have habs : (s.set l.settings.database (db.delete key)).item l.settings.database key
      = none := by
    rw [Storage.item_set_same, Database.delete_same]
  have hnz : item.expiration ≠ zeroTime := by
    intro hz
    have hz' : item.expiration = 0 := hz
    simp [locmemCacheItem.IsValid, Time.IsZero, hz'] at hexpired
  have hle : item.expiration ≤ now := by
    have hz' : ¬ item.expiration = 0 := hnz
    simpa [locmemCacheItem.IsValid, Time.IsZero, Time.Before, hz'] using hexpired
  rw [Get_expired l key now s item hitem hnz hle, hdel]
  refine ⟨rfl, habs, ?_, ?_⟩
  · rw [Delete_absent l key _ habs]
  · rw [Delete_absent l key _ habs]

/-- A run of C8 (amended): the expired item of `expiringStorage`. -/
theorem delete_ignores_expiration_witness :
    expiringStorage.item demoCache.settings.database "k" =
        some { expiration := unixEpoch + second, value := [118] } ∧
      locmemCacheItem.IsValid { expiration := unixEpoch + second, value := [118] }
        (unixEpoch + 2 * second) = false ∧
      (demoCache.Delete "k" expiringStorage).2 = none ∧
      (demoCache.Delete "k"
        (demoCache.Get "k" (unixEpoch + 2 * second) expiringStorage).1).2 =
          some CacheError.ErrNotFound :=
  have h := delete_ignores_expiration demoCache "k" expiringStorage
    { expiration := unixEpoch + second, value := [118] } (unixEpoch + 2 * second)
    (by decide) (by decide)
  ⟨by decide, by decide, h.1, h.2.2.1⟩

/-- C9. Reads do not slide the expiration: when the item stored under `key` is
valid at time `t` (its expiration is the zero "never" time, or `t` is strictly
before it, which is what `IsValid` computes), `Get(key)` at `t` returns the
stored value with no error and leaves the whole storage, that item and its
expiration included, as it is. -/
theorem get_valid_keeps_storage (l : locmemCache) (key : String) (t : Time) (s : Storage)
    (item : locmemCacheItem)
    (hitem : s.item l.settings.database key = some item)
    (hvalid : item.expiration = zeroTime ∨ t < item.expiration) :
    item.IsValid t = true ∧
    l.Get key t s = (s, item.value, none) ∧
    (l.Get key t s).1.item l.settings.database key = some item := by
  have hg := Get_valid l key t s item hitem hvalid
  refine ⟨?_, hg, ?_⟩
  · rcases hvalid with hz | hlt
    · have hz' : item.expiration = 0 := hz
      simp [locmemCacheItem.IsValid, Time.IsZero, hz']
    · simp [locmemCacheItem.IsValid, Time.Before, hlt]
  · rw [hg]; exact hitem

/-- A run of C9: the item expiring one second after the Unix epoch, read half
a second after it. -/
theorem get_valid_keeps_storage_witness :
    expiringStorage.item demoCache.settings.database "k" =
        some { expiration := unixEpoch + second, value := [118] } ∧
      ((unixEpoch + second : Time) = zeroTime ∨ unixEpoch + 500000000 < unixEpoch + second) ∧
      demoCache.Get "k" (unixEpoch + 500000000) expiringStorage =
        (expiringStorage, [118], none) :=
  ⟨by decide, by decide,
    (get_valid_keeps_storage demoCache "k" (unixEpoch + 500000000) expiringStorage
      { expiration := unixEpoch + second, value := [118] } (by decide) (by decide)).2.1⟩

/-- C10 on the code: `Set` never reads the default expiration of the settings.
For a cache whose settings carry a default expiration `E > 0`, `Set(key,
value)` without an explicit expiration at time `t0` stores the item with the
zero ("never") expiration, not `t0 + E`, and a `Get(key)` at any time, also at
or after `t0 + E`, returns `value` instead of failing with `ErrNotFound`. -/
theorem set_ignores_default_expiration (l : locmemCache) (key : String) (value : Bytes)
    (t0 : Time) (s : Storage) (_hE : 0 < l.settings.expiration) :
    ∃ s1, l.Set key value [] t0 s = some (s1, none) ∧
      s1.item l.settings.database key = some { expiration := zeroTime, value := value } ∧
      ∀ t, t0 + l.settings.expiration ≤ t → l.Get key t s1 = (s1, value, none) := by
  have h := (stored_item l key s { expiration := zeroTime, value := value }).1
  refine ⟨_, Set_no_ttl l key value t0 s, h, ?_⟩
  intro t _
  exact Get_valid l key t _ _ h (Or.inl rfl)

/-- A run of C10: default expiration of ten seconds, `Set("k", "v")` at the
Unix epoch, `Get("k")` ten seconds later returns `v`. -/
theorem set_ignores_default_expiration_witness :
    0 < tenSecondCache.settings.expiration ∧
    ∃ s1, tenSecondCache.Set "k" [118] [] unixEpoch initStorage = some (s1, none) ∧
      s1.item "default" "k" = some { expiration := zeroTime, value := [118] } ∧
      (tenSecondCache.Get "k" (unixEpoch + 10 * second) s1).2 = ([118], none) ∧
      (tenSecondCache.Get "k" (unixEpoch + 10 * second) s1).2 ≠
        ([], some CacheError.ErrNotFound) :=
  have ⟨s1, h1, h2, h3⟩ :=
    set_ignores_default_expiration tenSecondCache "k" [118] unixEpoch initStorage (by decide)
  have h4 : (tenSecondCache.Get "k" (unixEpoch + 10 * second) s1).2 = ([118], none) :=
    congrArg Prod.snd (h3 (unixEpoch + 10 * second) (le_refl _))
  ⟨by decide, s1, h1, h2, h4, by rw [h4]; decide⟩

/-! Lemmas on the registry -/

theorem sortStrings_perm (list : List String) : (sortStrings list).Perm list :=
  List.perm_insertionSort _ list

theorem sortStrings_sorted (list : List String) :
    List.Sorted (fun a b => a ≤ b) (sortStrings list) :=
  List.sorted_insertionSort _ list

theorem mem_sortStrings (name : String) (list : List String) :
    name ∈ sortStrings list ↔ name ∈ list :=
  (sortStrings_perm list).mem_iff

theorem sortStrings_nodup (list : List String) (h : list.Nodup) : (sortStrings list).Nodup :=
  (sortStrings_perm list).nodup_iff.mpr h

/-- Sorting does not depend on the order in which the names come. -/
theorem sortStrings_of_perm (l₁ l₂ : List String) (h : l₁.Perm l₂) :
    sortStrings l₁ = sortStrings l₂ :=
  List.eq_of_perm_of_sorted
    (((sortStrings_perm l₁).trans h).trans (sortStrings_perm l₂).symm)
    (sortStrings_sorted l₁) (sortStrings_sorted l₂)

theorem sortStrings_strict (list : List String) (h : list.Nodup) :
    List.Sorted (fun a b => a < b) (sortStrings list) := by
  have hs := sortStrings_sorted list
  have hn := sortStrings_nodup list h
  unfold List.Sorted at hs ⊢
  unfold List.Nodup at hn
  exact (hs.and hn).imp (fun hab => lt_of_le_of_ne hab.1 hab.2)

theorem registry_mem_iff {C : Type} (drivers : Registry C) (name : String) :
    name ∈ drivers.keys ↔ (drivers.lookup name).isSome = true := by
  rw [AList.lookup_isSome, AList.mem_keys]

/-! The claims on the registry and the facade -/

/-- C11. `Register(name, driver)` panics if and only if `driver` is nil or
`name` is already registered, and then leaves the registry as it is; otherwise
it does not panic, binds `name` to `driver`, leaves every other binding as it
is, and `name` is an element of the result of `Drivers()` afterwards. -/
theorem register_panics_iff {C : Type} (name : String) (driver : Option (CacheDriver C))
    (drivers : Registry C) :
    ((Register name driver drivers).2.isSome = true ↔
      driver = none ∨ (drivers.lookup name).isSome = true) ∧
    ((Register name driver drivers).2.isSome = true →
      (Register name driver drivers).1 = drivers) ∧
    (∀ d, driver = some d → drivers.lookup name = none →
      (Register name driver drivers).2 = none ∧
      (Register name driver drivers).1.lookup name = some d ∧
      (∀ other, other ≠ name →
        (Register name driver drivers).1.lookup other = drivers.lookup other) ∧
      name ∈ (Drivers (Register name driver drivers).1).2) := by
  refine ⟨?_, ?_, ?_⟩
  · cases driver with
    | none => simp [Register]
    | some d =>
      cases h : drivers.lookup name with
      | none => simp [Register, h]
      | some d' => simp [Register, h]
  · cases driver with
    | none => simp [Register]
    | some d =>
      cases h : drivers.lookup name with
      | none => simp [Register, h]
      | some d' => simp [Register, h]
  · intro d hd hfree
    subst hd
    have hreg : Register name (some d) drivers = (drivers.insert name d, none) := by
      simp only [Register, hfree]
    rw [hreg]
    refine ⟨rfl, AList.lookup_insert drivers, ?_, ?_⟩
    · intro other hne
      exact AList.lookup_insert_ne hne
    · simp only [Drivers]
      rw [mem_sortStrings, ← AList.mem_keys, AList.mem_insert]
      exact Or.inl rfl

/-- C12. `Drivers()` returns a list that contains each registered name exactly
once and nothing else, in strictly ascending lexicographic order, whatever the
order in which the map hands the names out, and leaves the registry as it
is. -/
theorem drivers_sorted_names {C : Type} (drivers : Registry C) :
    (Drivers drivers).1 = drivers ∧
    (∀ name, (Drivers drivers).2.count name =
      if (drivers.lookup name).isSome = true then 1 else 0) ∧
    List.Sorted (fun a b => a < b) (Drivers drivers).2 ∧
    (∀ order : List String, order.Perm drivers.keys →
      sortStrings order = (Drivers drivers).2) := by
  refine ⟨rfl, ?_, ?_, ?_⟩
  · intro name
    simp only [Drivers]
    by_cases h : (drivers.lookup name).isSome = true
    · rw [if_pos h]
      exact List.count_eq_one_of_mem (sortStrings_nodup _ drivers.keys_nodup)
        ((mem_sortStrings name _).mpr ((registry_mem_iff drivers name).mpr h))
    · rw [if_neg h]
      apply List.count_eq_zero_of_not_mem
      intro hmem
      exact h ((registry_mem_iff drivers name).mp ((mem_sortStrings name _).mp hmem))
  · exact sortStrings_strict _ drivers.keys_nodup
  · intro order horder
    exact sortStrings_of_perm order drivers.keys horder

/-- A run of C11 on the registry the `init` functions leave:
registering `new` succeeds, registering it again panics, registering a nil
driver panics, and `Drivers()` then lists `locmem`, `new`, `redis`. -/
theorem register_panics_iff_witness :
    (Register "new" (some (redisCacheDriver rejectParse rejectQuery))
      (initDrivers rejectParse rejectDuration rejectQuery)).2 = none ∧
    (Register "new" (some (redisCacheDriver rejectParse rejectQuery))
      (Register "new" (some (redisCacheDriver rejectParse rejectQuery))
        (initDrivers rejectParse rejectDuration rejectQuery)).1).2.isSome = true ∧
    (Register "bad" none (initDrivers rejectParse rejectDuration rejectQuery)).2.isSome
      = true ∧
    "new" ∈ (Drivers (Register "new" (some (redisCacheDriver rejectParse rejectQuery))
      (initDrivers rejectParse rejectDuration rejectQuery)).1).2 :=
  have h := register_panics_iff "new" (some (redisCacheDriver rejectParse rejectQuery))
    (initDrivers rejectParse rejectDuration rejectQuery)
  have hfree : (initDrivers rejectParse rejectDuration rejectQuery).lookup "new" = none :=
    rfl
  have h1 := h.2.2 _ rfl hfree
  ⟨h1.1,
    (register_panics_iff "new" (some (redisCacheDriver rejectParse rejectQuery))
      (Register "new" (some (redisCacheDriver rejectParse rejectQuery))
        (initDrivers rejectParse rejectDuration rejectQuery)).1).1.mpr
      (Or.inr (by rw [h1.2.1]; rfl)),
    (register_panics_iff "bad" none
      (initDrivers rejectParse rejectDuration rejectQuery)).1.mpr (Or.inl rfl),
    h1.2.2.2⟩

/-- C13. `Open(descriptor)`: when parsing the descriptor fails, `Open` returns
that parse error and no cache; when parsing succeeds and the scheme is not
registered, it returns the unknown-driver error for that scheme and no cache,
whatever the registered drivers do; otherwise it returns exactly what the
registered driver's `Open(descriptor)` returns. -/
theorem open_dispatch {C : Type} (Parse : String → Except GoError DSN)
    (drivers : Registry C) (dsn : String) :
    (∀ err, Parse dsn = Except.error err →
      Open Parse drivers dsn = some (none, some err)) ∧
    (∀ d, Parse dsn = Except.ok d → drivers.lookup d.Scheme = none →
      Open Parse drivers dsn = some (none, some (GoError.unknownDriver d.Scheme))) ∧
    (∀ d di, Parse dsn = Except.ok d → drivers.lookup d.Scheme = some di →
      Open Parse drivers dsn = di.Open dsn) := by
  refine ⟨?_, ?_, ?_⟩
  · intro err h
    simp only [Open, h]
  · intro d h hl
    simp only [Open, h, hl]
  · intro d di h hl
    simp only [Open, h, hl]

/-- C14. `OpenConnection(name, handle, options...)`: when `name` is not
registered it fails with the unknown-driver error; otherwise it returns
exactly what the driver's `OpenConnection(handle, s)` returns, where `s` is the
first options string, or the empty string when there is none; the options
strings after the first have no effect. -/
theorem open_connection_dispatch {C : Type} (drivers : Registry C) (name : String)
    (handle : Connection) :
    (drivers.lookup name = none → ∀ options,
      OpenConnection drivers name handle options =
        some (none, some (GoError.unknownDriver name))) ∧
    (∀ di, drivers.lookup name = some di →
      OpenConnection drivers name handle [] = di.OpenConnection handle [""] ∧
      ∀ s rest, OpenConnection drivers name handle (s :: rest) =
        di.OpenConnection handle [s]) := by
  refine ⟨?_, ?_⟩
  · intro h options
    simp only [OpenConnection, h]
  · intro di h
    refine ⟨?_, ?_⟩
    · simp only [OpenConnection, h]
    · intro s rest
      simp only [OpenConnection, h]

/-- A run of C14 on the registry the `init` functions leave: an
unregistered name, and the `redis` driver called with a nil handle. -/
theorem open_connection_dispatch_witness :
    (initDrivers rejectParse rejectDuration rejectQuery).lookup "imap" = none ∧
    OpenConnection (initDrivers rejectParse rejectDuration rejectQuery) "imap"
      Connection.nil [] = some (none, some (GoError.unknownDriver "imap")) ∧
    OpenConnection (initDrivers rejectParse rejectDuration rejectQuery) "redis"
      Connection.nil [] = some (none, some GoError.unknownConnection) :=
  have h := open_connection_dispatch
    (initDrivers rejectParse rejectDuration rejectQuery) "imap" Connection.nil
  ⟨rfl, h.1 rfl [], rfl⟩

/-- C15 on the code: called with a `*redis.Pool` and no settings string,
`RedisDriver.OpenConnection` indexes the empty `settings` and panics, instead
of returning a cache with the default settings and a nil error.  With one
settings string that parses it returns the cache and a nil error; a connection
that is not a `*redis.Pool` gets an error, with or without settings. -/
theorem redis_open_connection_without_settings (r : RedisDriver)
    (ParseQuery : String → Except GoError DSNValues) (pool : Pool) :
    r.OpenConnection ParseQuery (Connection.redisPool pool) [] = none ∧
    (∀ s rest values, ParseQuery s = Except.ok values →
      r.OpenConnection ParseQuery (Connection.redisPool pool) (s :: rest) =
        some (some { pool := pool, expiration := (NewRedisSettings values).1.expiration,
                     settings := (NewRedisSettings values).1 }, none)) ∧
    (∀ settings, r.OpenConnection ParseQuery Connection.nil settings =
      some (none, some GoError.unknownConnection)) ∧
    (∀ description settings,
      r.OpenConnection ParseQuery (Connection.other description) settings =
        some (none, some GoError.unknownConnection)) := by
  refine ⟨rfl, ?_, ?_, ?_⟩
  · intro s rest values h
    simp only [RedisDriver.OpenConnection, NewRedisSettingsFromQuery, h, NewRedisSettings]
  · intro settings
    rfl
  · intro description settings
    rfl

/-- C16, as stated, fails on the code: for the option source whose
`pool_max_active` is the text `abc`, which `strconv.Atoi` rejects,
`NewRedisSettings` and `NewRedisSettingsFromQuery` return a settings value and
a nil error. -/
theorem settings_resolver_counterexample :
    malformedValues.Get URL_PARAM_POOL_MAX_ACTIVE = "abc" ∧
    Atoi ("abc".data.map Char.toNat) = none ∧
    (NewRedisSettings malformedValues).2 = none ∧
    (NewRedisSettingsFromQuery (fun _ => Except.ok malformedValues)
      "pool_max_active=abc").2 = none ∧
    (NewRedisSettingsFromQuery (fun _ => Except.ok malformedValues)
      "pool_max_active=abc").1 =
        some { pool := { MaxIdle := 10, MaxActive := 20, IdleTimeout := 200000000 },
               expiration := 0, keyPrefix := "" } := by
  decide

/-- C16, amended. The settings resolver has no error of its own:
`NewRedisSettings` returns a nil error for every option source, each field
being what the typed accessor of the source returns for the option and its
default; `NewRedisSettingsFromQuery` fails only when the query itself does not
parse, with that parse error, and `ParseRedisDSN` only when the descriptor
does not parse. -/
theorem settings_resolver_never_rejects (values : DSNValues)
    (ParseQuery : String → Except GoError DSNValues)
    (Parse : String → Except GoError DSN) (query dsn : String) :
    NewRedisSettings values =
      ({ pool := {
           MaxIdle := values.GetInt URL_PARAM_POOL_MAX_IDLE DEFAULT_POOL_MAX_IDLE,
           MaxActive := values.GetInt URL_PARAM_POOL_MAX_ACTIVE DEFAULT_POOL_MAX_ACTIVE,
           IdleTimeout :=
             values.GetSeconds URL_PARAM_POOL_IDLE_TIMEOUT DEFAULT_POOL_IDLE_TIMEOUT },
         expiration := values.GetSeconds URL_PARAM_EXPIRATION DEFAULT_EXPIRATION,
         keyPrefix := values.GetString URL_PARAM_PREFIX DEFAULT_PREFIX }, none) ∧
    (∀ err, ParseQuery query = Except.error err →
      NewRedisSettingsFromQuery ParseQuery query = (none, some err)) ∧
    (∀ v, ParseQuery query = Except.ok v →
      NewRedisSettingsFromQuery ParseQuery query = (some (NewRedisSettings v).1, none)) ∧
    (∀ err, Parse dsn = Except.error err → ParseRedisDSN Parse dsn = (none, some err)) ∧
    (∀ d, Parse dsn = Except.ok d →
      ParseRedisDSN Parse dsn =
        (some { dsn := d, settings := (NewRedisSettings d.values).1 }, none)) := by
  refine ⟨rfl, ?_, ?_, ?_, ?_⟩
  · intro err h
    simp only [NewRedisSettingsFromQuery, h]
  · intro v h
    simp only [NewRedisSettingsFromQuery, h, NewRedisSettings]
  · intro err h
    simp only [ParseRedisDSN, h]
  · intro d h
    simp only [ParseRedisDSN, h]

/-- C19. Redis key prefixing: `Prefixed(s)` is `s` when the configured prefix
is empty and the prefix, a colon and `s` otherwise (the prefix `gocacher` maps
`str` to `gocacher:str`); for fixed settings two different keys never map to
the same prefixed key. -/
theorem prefixed_injective (r : RedisSettings) (s : String) :
    (r.keyPrefix = "" → r.Prefixed s = s) ∧
    (r.keyPrefix ≠ "" → r.Prefixed s = r.keyPrefix ++ ":" ++ s) ∧
    RedisSettings.Prefixed
      { pool := { MaxIdle := 200, MaxActive := 100, IdleTimeout := 555 * second },
        expiration := 456 * second, keyPrefix := "gocacher" } "str" = "gocacher:str" ∧
    (∀ t, s ≠ t → r.Prefixed s ≠ r.Prefixed t) := by
  refine ⟨?_, ?_, by decide, ?_⟩
  · intro h
    simp only [RedisSettings.Prefixed, h, if_true]
  · intro h
    simp only [RedisSettings.Prefixed, h, if_false]
  · intro t hne heq
    apply hne
    unfold RedisSettings.Prefixed at heq
    split at heq
    · exact heq
    · have hd := congrArg String.data heq
      simp only [String.data_append] at hd
      exact String.ext (List.append_cancel_left hd)

/-- A run of C13: a descriptor that does not parse, and one whose scheme is
not registered. -/
theorem open_dispatch_witness :
    demoParse "%://" = Except.error (GoError.external "parse") ∧
    Open demoParse (initDrivers demoParse rejectDuration rejectQuery) "%://" =
      some (none, some (GoError.external "parse")) ∧
    Open demoParse (initDrivers demoParse rejectDuration rejectQuery) "nonexisting://" =
      some (none, some (GoError.unknownDriver "nonexisting")) :=
  have h1 := open_dispatch demoParse (initDrivers demoParse rejectDuration rejectQuery) "%://"
  have h2 := open_dispatch demoParse (initDrivers demoParse rejectDuration rejectQuery)
    "nonexisting://"
  ⟨rfl, h1.1 _ rfl,
    h2.2.1 { Scheme := "nonexisting", Path := "", values := emptyValues } rfl rfl⟩

/-! Lemmas on trimming -/

theorem rdropWhile_append_rtakeWhile (f : Char → Bool) (s : List Char) :
    s.rdropWhile f ++ s.rtakeWhile f = s := by
  unfold List.rdropWhile List.rtakeWhile
  rw [← List.reverse_append, List.takeWhile_append_dropWhile, List.reverse_reverse]

theorem trimFunc_isTrimOf (f : Char → Bool) (s : List Char) :
    IsTrimOf f (trimFunc f s) s := by
  refine ⟨s.takeWhile f, (s.dropWhile f).rtakeWhile f, ?_, ?_, ?_, ?_, ?_⟩
  · unfold trimFunc
    rw [List.append_assoc, rdropWhile_append_rtakeWhile, List.takeWhile_append_dropWhile]
  · intro c hc
    exact List.mem_takeWhile_imp hc
  · intro c hc
    exact List.mem_rtakeWhile_imp hc
  · intro c hc
    unfold trimFunc at hc
    have hne : (s.dropWhile f).rdropWhile f ≠ [] := by
      intro h0
      rw [h0] at hc
      simp at hc
    have hpre := List.rdropWhile_prefix f (s.dropWhile f)
    have hhead := hpre.head hne
    have hd := List.head?_dropWhile_not f s
    have hne' : s.dropWhile f ≠ [] := by
      intro h0
      rw [h0] at hne
      simp at hne
    rw [List.head?_eq_head hne] at hc
    rw [List.head?_eq_head hne'] at hd
    simp only [Option.some.injEq] at hc
    rw [← hc, hhead]
    exact hd
  · intro c hc
    unfold trimFunc at hc
    have hne : (s.dropWhile f).rdropWhile f ≠ [] := by
      intro h0
      rw [h0] at hc
      simp at hc
    have hl := List.rdropWhile_last_not f (s.dropWhile f) hne
    rw [List.getLast?_eq_getLast _ hne] at hc
    simp only [Option.some.injEq] at hc
    rw [← hc]
    simpa using hl

theorem cutset_slash :
    (fun c : Char => "/".data.contains c) = (fun c : Char => decide (c = '/')) := by
  funext c
  simp

/-- C17. The database name of the memory backend: for every descriptor that
`godsn.Parse` accepts, with path `p`, and whose `expiration` option is absent
or a valid duration, `newLocmemSettings` returns settings whose database name
is `p` with the surrounding white space and then all leading and trailing `/`
removed, or the literal `default` when nothing is left; hence the name is
never empty and neither starts nor ends with `/`. -/
theorem database_name (Parse : String → Except GoError DSN)
    (ParseDuration : String → Except GoError Int) (dsn : String) (values : DSN)
    (hparse : Parse dsn = Except.ok values)
    (hexp : values.values.GetString URL_PARAM_EXPIRATION "" = "" ∨
      ∃ d, ParseDuration (values.values.GetString URL_PARAM_EXPIRATION "") = Except.ok d) :
    ∃ settings, newLocmemSettings Parse ParseDuration dsn = some (settings, none) ∧
      IsDatabaseNameOf settings.database values.Path ∧
      settings.database ≠ "" ∧
      settings.database.data.head? ≠ some '/' ∧
      settings.database.data.getLast? ≠ some '/' := by
  have hname : IsDatabaseNameOf
      (if Trim (TrimSpace values.Path) "/" = "" then LOCMEM_DEFAULT_DATABASE
        else Trim (TrimSpace values.Path) "/") values.Path ∧
      (if Trim (TrimSpace values.Path) "/" = "" then LOCMEM_DEFAULT_DATABASE
        else Trim (TrimSpace values.Path) "/") ≠ "" ∧
      (if Trim (TrimSpace values.Path) "/" = "" then LOCMEM_DEFAULT_DATABASE
        else Trim (TrimSpace values.Path) "/").data.head? ≠ some '/' ∧
      (if Trim (TrimSpace values.Path) "/" = "" then LOCMEM_DEFAULT_DATABASE
        else Trim (TrimSpace values.Path) "/").data.getLast? ≠ some '/' := by
    have h1 := trimFunc_isTrimOf isSpace values.Path.data
    have h2 := trimFunc_isTrimOf (fun c => "/".data.contains c)
      (trimFunc isSpace values.Path.data)
    rw [cutset_slash] at h2
    have hcore : (Trim (TrimSpace values.Path) "/").data =
        trimFunc (fun c => decide (c = '/')) (trimFunc isSpace values.Path.data) := by
      show trimFunc (fun c => "/".data.contains c) (trimFunc isSpace values.Path.data) = _
      rw [cutset_slash]
    have hiff : Trim (TrimSpace values.Path) "/" = "" ↔
        trimFunc (fun c => decide (c = '/')) (trimFunc isSpace values.Path.data) = [] := by
      rw [← hcore]
      constructor
      · intro h; rw [h]
      · intro h; exact String.ext h
    obtain ⟨_, _, _, _, _, hhead, hlast⟩ := h2
    by_cases hempty : Trim (TrimSpace values.Path) "/" = ""
    · rw [if_pos hempty]
      refine ⟨⟨_, _, h1, trimFunc_isTrimOf _ _, ?_⟩, by decide, by decide, by decide⟩
      rw [if_pos (hiff.mp hempty)]
      rfl
    · rw [if_neg hempty]
      refine ⟨⟨_, _, h1, trimFunc_isTrimOf _ _, ?_⟩, hempty, ?_, ?_⟩
      · rw [if_neg (fun h => hempty (hiff.mpr h))]
        exact String.ext hcore
      · intro hc
        rw [hcore] at hc
        have := hhead _ hc
        simp at this
      · intro hc
        rw [hcore] at hc
        have := hlast _ hc
        simp at this
  by_cases hnone : values.values.GetString URL_PARAM_EXPIRATION "" = ""
  · refine ⟨locmemSettings.mk (if Trim (TrimSpace values.Path) "/" = ""
        then LOCMEM_DEFAULT_DATABASE else Trim (TrimSpace values.Path) "/")
      DEFAULT_EXPIRATION, ?_, hname⟩
    simp only [newLocmemSettings, hparse, hnone, if_true]
  · rcases hexp with habs | ⟨d, hd⟩
    · exact absurd habs hnone
    · refine ⟨locmemSettings.mk (if Trim (TrimSpace values.Path) "/" = ""
          then LOCMEM_DEFAULT_DATABASE else Trim (TrimSpace values.Path) "/") d, ?_, hname⟩
      simp only [newLocmemSettings, hparse, hnone, if_false, hd]

/-- A run of C17: the path ` /cache/db// ` gives the database `cache/db`. -/
theorem database_name_witness :
    demoParse "locmem:/// /cache/db// " =
      Except.ok { Scheme := "locmem", Path := " /cache/db// ", values := emptyValues } ∧
    emptyValues.GetString URL_PARAM_EXPIRATION "" = "" ∧
    newLocmemSettings demoParse rejectDuration "locmem:/// /cache/db// " =
      some ({ database := "cache/db", expiration := DEFAULT_EXPIRATION }, none) ∧
    ∃ settings, newLocmemSettings demoParse rejectDuration "locmem:/// /cache/db// " =
        some (settings, none) ∧
      IsDatabaseNameOf settings.database " /cache/db// " ∧
      settings.database ≠ "" ∧
      settings.database.data.head? ≠ some '/' ∧
      settings.database.data.getLast? ≠ some '/' :=
  ⟨rfl, rfl, by decide,
    database_name demoParse rejectDuration "locmem:/// /cache/db// "
      { Scheme := "locmem", Path := " /cache/db// ", values := emptyValues } rfl (Or.inl rfl)⟩

/-! Lemmas on isolation -/

theorem keepsOthers_refl (database key : String) (s : Storage) :
    keepsOthers database key s s :=
  ⟨fun _ _ _ => rfl, fun _ h => h⟩

theorem keepsOthers_trans {database key : String} {s s' s'' : Storage}
    (h : keepsOthers database key s s') (h' : keepsOthers database key s' s'') :
    keepsOthers database key s s'' :=
  ⟨fun d k hne => (h'.1 d k hne).trans (h.1 d k hne), fun d hd => h'.2 d (h.2 d hd)⟩

theorem keepsOthers_getDatabase (database key : String) (s : Storage) :
    keepsOthers database key s (getDatabase database s).1 := by
  refine ⟨fun d k _ => (getDatabase_spec database s).2.2.1 d k, ?_⟩
  intro d hd
  unfold getDatabase
  cases h : s database with
  | none =>
    simp only [Storage.set]
    by_cases hdd : d = database
    · simp [hdd]
    · simpa [hdd] using hd
  | some db => exact hd

theorem Storage.set_exists (s : Storage) (database : String) (db : Database) (d : String)
    (hd : s d ≠ none) : (s.set database db) d ≠ none := by
  unfold Storage.set
  by_cases hdd : d = database
  · simp [hdd]
  · simpa [hdd] using hd

theorem keepsOthers_writeItem (l : locmemCache) (key : String) (item : locmemCacheItem)
    (s : Storage) : keepsOthers l.settings.database key s (writeItem l key item s) := by
  refine ⟨fun d k hne => writeItem_frame l key item s d k hne, ?_⟩
  intro d hd
  exact Storage.set_exists _ _ _ d ((keepsOthers_getDatabase l.settings.database key s).2 d hd)

theorem keepsOthers_Delete (l : locmemCache) (key : String) (s : Storage) :
    keepsOthers l.settings.database key s (l.Delete key s).1 := by
  cases h : s.item l.settings.database key with
  | none =>
    rw [Delete_absent l key s h]
    exact keepsOthers_getDatabase l.settings.database key s
  | some item =>
    obtain ⟨db, hdb, _, hdel⟩ := Delete_present l key s item h
    rw [hdel]
    refine ⟨?_, fun d hd => Storage.set_exists _ _ _ d hd⟩
    intro d k hne
    rw [Storage.item_set]
    by_cases hd : d = l.settings.database
    · have hk : k ≠ key := by
        rcases hne with hne | hne
        · exact absurd hd hne
        · exact hne
      simp only [hd, if_true, Database.delete, hk, if_false, Storage.item, hdb]
    · simp only [hd, if_false]

theorem keepsOthers_Get (l : locmemCache) (key : String) (t : Time) (s : Storage) :
    keepsOthers l.settings.database key s (l.Get key t s).1 := by
  cases h : s.item l.settings.database key with
  | none =>
    rw [Get_absent l key t s h]
    exact keepsOthers_getDatabase l.settings.database key s
  | some item =>
    by_cases hv : item.expiration = zeroTime ∨ t < item.expiration
    · rw [Get_valid l key t s item h hv]
      exact keepsOthers_refl _ _ s
    · have hnz : item.expiration ≠ zeroTime := fun hz => hv (Or.inl hz)
      have hle : item.expiration ≤ t := not_lt.mp (fun hlt => hv (Or.inr hlt))
      rw [Get_expired l key t s item h hnz hle]
      exact keepsOthers_Delete l key s

theorem keepsOthers_Incr (l : locmemCache) (key : String) (num : List Int) (s : Storage) :
    keepsOthers l.settings.database key s (l.Incr key num s).1 := by
  rw [congrArg Prod.fst (Incr_stores l key num s)]
  exact keepsOthers_writeItem l key _ s

theorem keepsOthers_Decr (l : locmemCache) (key : String) (num : List Int) (s : Storage) :
    keepsOthers l.settings.database key s (l.Decr key num s).1 := by
  rw [congrArg Prod.fst (Decr_stores l key num s)]
  exact keepsOthers_writeItem l key _ s

theorem keepsOthers_Set (l : locmemCache) (key : String) (value : Bytes)
    (expiration : List Int) (t : Time) (s s1 : Storage) (err : Option CacheError)
    (h : l.Set key value expiration t s = some (s1, err)) :
    keepsOthers l.settings.database key s s1 := by
  match expiration, h with
  | [], h =>
    rw [Set_no_ttl] at h
    simp only [Option.some.injEq, Prod.mk.injEq] at h
    rw [← h.1]
    exact keepsOthers_writeItem l key _ s
  | [d], h =>
    rw [Set_ttl] at h
    simp only [Option.some.injEq, Prod.mk.injEq] at h
    rw [← h.1]
    exact keepsOthers_writeItem l key _ s
  | _ :: _ :: _, h =>
    simp [locmemCache.Set] at h

/-- What `Get` returns is read off the item stored under the key of the
cache's database: the value of a valid item, `ErrNotFound` otherwise. -/
theorem Get_outcome (l : locmemCache) (key : String) (t : Time) (s : Storage) :
    (l.Get key t s).2 =
      match s.item l.settings.database key with
      | some item =>
        if item.IsValid t = true then (item.value, none)
        else ([], some CacheError.ErrNotFound)
      | none => ([], some CacheError.ErrNotFound) := by
  cases h : s.item l.settings.database key with
  | none => rw [Get_absent l key t s h]
  | some item =>
    by_cases hv : item.expiration = zeroTime ∨ t < item.expiration
    · rw [Get_valid l key t s item h hv]
      have : item.IsValid t = true := by
        rcases hv with hz | hlt
        · have hz' : item.expiration = 0 := hz
          simp [locmemCacheItem.IsValid, Time.IsZero, hz']
        · simp [locmemCacheItem.IsValid, Time.Before, hlt]
      simp [this]
    · have hnz : item.expiration ≠ zeroTime := fun hz => hv (Or.inl hz)
      have hle : item.expiration ≤ t := not_lt.mp (fun hlt => hv (Or.inr hlt))
      rw [Get_expired l key t s item h hnz hle]
      have hnz' : ¬ item.expiration = 0 := hnz
      have hnlt : ¬ t < item.expiration := not_lt.mpr hle
      have : item.IsValid t = false := by
        simp [locmemCacheItem.IsValid, Time.IsZero, Time.Before, hnz', hnlt]
      simp [this]

/-- C20. Isolation and sharing in the memory backend.  What `Get(key)` returns
depends only on the time and on the item stored under (database name, key).
A cache with the same database name is the same view of the storage: each of
its operations does what the first cache's does, so each sees what the other
wrote.  A `Set`, `Delete`, `Incr`, `Decr` or `Get` on another database name, or
on another key of the same database, leaves the item under (database name,
key) as it is.  No operation removes a database that exists. -/
theorem isolation_and_sharing (l l2 : locmemCache) (key key2 : String) (s : Storage) :
    (∀ s' t, s'.item l.settings.database key = s.item l.settings.database key →
      (l.Get key t s').2 = (l.Get key t s).2) ∧
    (l2.settings.database = l.settings.database →
      (∀ t, l2.Get key t s = l.Get key t s) ∧
      (∀ value expiration t, l2.Set key value expiration t s =
        l.Set key value expiration t s) ∧
      l2.Delete key s = l.Delete key s ∧
      (∀ num, l2.Incr key num s = l.Incr key num s) ∧
      (∀ num, l2.Decr key num s = l.Decr key num s) ∧
      (∀ value t0 s1, l.Set key value [] t0 s = some (s1, none) →
        ∀ t, (l2.Get key t s1).2 = (value, none)) ∧
      (∀ num t, (l2.Get key t (l.Incr key num s).1).2 =
        (Itoa (l.Incr key num s).2.1, none)) ∧
      (∀ t, (l2.Get key t (l.Delete key s).1).2 = ([], some CacheError.ErrNotFound))) ∧
    (l2.settings.database ≠ l.settings.database ∨ key2 ≠ key →
      (∀ value expiration t s1 err, l2.Set key2 value expiration t s = some (s1, err) →
        s1.item l.settings.database key = s.item l.settings.database key) ∧
      (l2.Delete key2 s).1.item l.settings.database key = s.item l.settings.database key ∧
      (∀ num, (l2.Incr key2 num s).1.item l.settings.database key =
        s.item l.settings.database key) ∧
      (∀ num, (l2.Decr key2 num s).1.item l.settings.database key =
        s.item l.settings.database key) ∧
      (∀ t, (l2.Get key2 t s).1.item l.settings.database key =
        s.item l.settings.database key)) ∧
    (∀ d, s d ≠ none →
      (∀ value expiration t s1 err, l2.Set key2 value expiration t s = some (s1, err) →
        s1 d ≠ none) ∧
      (l2.Delete key2 s).1 d ≠ none ∧
      (∀ num, (l2.Incr key2 num s).1 d ≠ none) ∧
      (∀ num, (l2.Decr key2 num s).1 d ≠ none) ∧
      (∀ t, (l2.Get key2 t s).1 d ≠ none)) := by
  refine ⟨?_, ?_, ?_, ?_⟩
  · intro s' t h
    rw [Get_outcome, Get_outcome, h]
  · intro hsame
    have hview : ∀ (k : String) (s0 : Storage),
        (∀ t, l2.Get k t s0 = l.Get k t s0) ∧
        (∀ value expiration t, l2.Set k value expiration t s0 =
          l.Set k value expiration t s0) ∧
        l2.Delete k s0 = l.Delete k s0 ∧
        (∀ num, l2.Incr k num s0 = l.Incr k num s0) ∧
        (∀ num, l2.Decr k num s0 = l.Decr k num s0) := by
      intro k s0
      simp only [locmemCache.Get, locmemCache.Set, locmemCache.Delete, locmemCache.Incr,
        locmemCache.Decr, hsame]
      exact ⟨fun _ => trivial, fun _ _ _ => trivial, trivial, fun _ => trivial,
        fun _ => trivial⟩
    obtain ⟨hg, hs, hd, hi, hdc⟩ := hview key s
    refine ⟨hg, hs, hd, hi, hdc, ?_, ?_, ?_⟩
    · intro value t0 s1 hset t
      rw [Set_no_ttl] at hset
      simp only [Option.some.injEq, Prod.mk.injEq, and_true] at hset
      have hitem := (stored_item l key s { expiration := zeroTime, value := value }).1
      rw [hset] at hitem
      rw [(hview key s1).1 t, Get_valid l key t s1 _ hitem (Or.inl rfl)]
    · intro num t
      have hitem : (l.Incr key num s).1.item l.settings.database key =
          some { expiration := zeroTime, value := Itoa (l.Incr key num s).2.1 } := by
        rw [congrArg Prod.fst (Incr_stores l key num s)]
        exact writeItem_item l key _ s
      rw [(hview key _).1 t, Get_valid l key t _ _ hitem (Or.inl rfl)]
    · intro t
      have habs : (l.Delete key s).1.item l.settings.database key = none := by
        cases h : s.item l.settings.database key with
        | none =>
          rw [Delete_absent l key s h, (getDatabase_spec l.settings.database s).2.2.1, h]
        | some item =>
          obtain ⟨db, _, _, hdel⟩ := Delete_present l key s item h
          rw [hdel, Storage.item_set_same, Database.delete_same]
      rw [(hview key _).1 t, Get_absent l key t _ habs]
  · intro hne
    have hne' : l.settings.database ≠ l2.settings.database ∨ key ≠ key2 := by
      rcases hne with h | h
      · exact Or.inl (fun e => h e.symm)
      · exact Or.inr (fun e => h e.symm)
    refine ⟨?_, ?_, ?_, ?_, ?_⟩
    · intro value expiration t s1 err h
      exact (keepsOthers_Set l2 key2 value expiration t s s1 err h).1 _ _ hne'
    · exact (keepsOthers_Delete l2 key2 s).1 _ _ hne'
    · intro num
      exact (keepsOthers_Incr l2 key2 num s).1 _ _ hne'
    · intro num
      exact (keepsOthers_Decr l2 key2 num s).1 _ _ hne'
    · intro t
      exact (keepsOthers_Get l2 key2 t s).1 _ _ hne'
  · intro d hd
    refine ⟨?_, ?_, ?_, ?_, ?_⟩
    · intro value expiration t s1 err h
      exact (keepsOthers_Set l2 key2 value expiration t s s1 err h).2 d hd
    · exact (keepsOthers_Delete l2 key2 s).2 d hd
    · intro num
      exact (keepsOthers_Incr l2 key2 num s).2 d hd
    · intro num
      exact (keepsOthers_Decr l2 key2 num s).2 d hd
    · intro t
      exact (keepsOthers_Get l2 key2 t s).2 d hd

/-- A run of C20: a second cache on the database `default` reads the counter
the first one wrote, and a `Delete` of the same key through a cache on the
database `other` leaves the item of `default` as it is. -/
theorem isolation_and_sharing_witness :
    tenSecondCache.settings.database = demoCache.settings.database ∧
    (tenSecondCache.Get "k" unixEpoch (demoCache.Incr "k" [5] initStorage).1).2 =
      (Itoa (demoCache.Incr "k" [5] initStorage).2.1, none) ∧
    (otherCache.settings.database ≠ demoCache.settings.database ∨ "k" ≠ "k") ∧
    (otherCache.Delete "k" expiringStorage).1.item demoCache.settings.database "k" =
      expiringStorage.item demoCache.settings.database "k" :=
  have h := isolation_and_sharing demoCache tenSecondCache "k" "k" initStorage
  have h' := isolation_and_sharing demoCache otherCache "k" "k" expiringStorage
  ⟨rfl, (h.2.1 rfl).2.2.2.2.2.2.1 [5] unixEpoch, Or.inl (by decide),
    (h'.2.2.1 (Or.inl (by decide))).2.1⟩

/-! The claim on counters and expiration -/

/-- C21, as stated, fails on the code.  The item set at the Unix epoch with a
ttl of one second holds the text of the largest `int` and is expired two
seconds later; `Incr(key, 1)` then wraps around to the smallest `int` instead
of returning `n + 1`.  With the text of an integer beyond the `int` range in
its place, `strconv.Atoi` fails and `Incr(key, 1)` returns the absent-key
result 1. -/
theorem counters_ignore_expiration_counterexample :
    Option.map (fun r => (r.1.item "default" "counter", r.2))
        (demoCache.Set "counter" (Itoa 9223372036854775807) [second] unixEpoch
          initStorage) =
      some (expiredMaxCounterStorage.item "default" "counter", none) ∧
    expiredMaxCounterStorage.item "default" "counter" =
      some { expiration := unixEpoch + second, value := Itoa 9223372036854775807 } ∧
    locmemCacheItem.IsValid
      { expiration := unixEpoch + second, value := Itoa 9223372036854775807 }
      (unixEpoch + 2 * second) = false ∧
    (demoCache.Incr "counter" [1] expiredMaxCounterStorage).2 =
      (-9223372036854775808, none) ∧
    (demoCache.Incr "counter" [1] expiredMaxCounterStorage).2.1 ≠
      9223372036854775807 + 1 ∧
    expiredBigCounterStorage.item "default" "counter" =
      some { expiration := unixEpoch + second, value := Itoa 9223372036854775808 } ∧
    (demoCache.Incr "counter" [1] expiredBigCounterStorage).2 = (1, none) ∧
    (demoCache.Incr "counter" [1] expiredBigCounterStorage).2.1 ≠
      9223372036854775808 + 1 := by
  decide

/-- C21, amended. Counters ignore the expiration.  When the item stored under
`key` has passed its expiration time (a `Get(key)` now would fail with
`ErrNotFound`) but is still stored, and holds the base-10 text of an integer
`n` of the `int` range, `Incr(key, d)` returns `n + d` and `Decr(key, d)`
returns `n - d` whenever that number is in the `int` range too, not the
absent-key result, with no error; the item stored under `key` is then the text
of the returned number with the zero ("never") expiration, and a `Get(key)` at
any time returns that text. -/
theorem counters_ignore_expiration (l : locmemCache) (key : String) (s : Storage)
    (item : locmemCacheItem) (n d : Int) (now : Time)
    (hitem : s.item l.settings.database key = some item)
    (hexpired : item.IsValid now = false)
    (hval : item.value = Itoa n) (hn : minInt ≤ n ∧ n ≤ maxInt) :
    (l.Get key now s).2 = ([], some CacheError.ErrNotFound) ∧
    (minInt ≤ n + d ∧ n + d ≤ maxInt →
      (l.Incr key [d] s).2 = (n + d, none) ∧
      (l.Incr key [d] s).1.item l.settings.database key =
        some { expiration := zeroTime, value := Itoa (n + d) } ∧
      ∀ t, (l.Get key t (l.Incr key [d] s).1).2 = (Itoa (n + d), none)) ∧
    (minInt ≤ n - d ∧ n - d ≤ maxInt →
      (l.Decr key [d] s).2 = (n - d, none) ∧
      (l.Decr key [d] s).1.item l.settings.database key =
        some { expiration := zeroTime, value := Itoa (n - d) } ∧
      ∀ t, (l.Get key t (l.Decr key [d] s).1).2 = (Itoa (n - d), none)) := by
  have hp : Atoi item.value = some n := by rw [hval]; exact Atoi_Itoa n hn.1 hn.2
  refine ⟨?_, ?_, ?_⟩
  · rw [Get_outcome, hitem]
    simp [hexpired]
  · intro hr
    have hres : l.Incr key [d] s =
        (writeItem l key { expiration := zeroTime, value := Itoa (n + d) } s,
          n + d, none) := by
      rw [Incr_parsed l key [d] s item n hitem hp]
      simp only [delta, wrapInt_of_inRange _ hr.1 hr.2]
    have hstored := writeItem_item l key
      { expiration := zeroTime, value := Itoa (n + d) } s
    rw [hres]
    refine ⟨rfl, hstored, ?_⟩
    intro t
    rw [Get_valid l key t _ _ hstored (Or.inl rfl)]
  · intro hr
    have hres : l.Decr key [d] s =
        (writeItem l key { expiration := zeroTime, value := Itoa (n - d) } s,
          n - d, none) := by
      rw [Decr_parsed l key [d] s item n hitem hp]
      simp only [delta, wrapInt_of_inRange _ hr.1 hr.2]
    have hstored := writeItem_item l key
      { expiration := zeroTime, value := Itoa (n - d) } s
    rw [hres]
    refine ⟨rfl, hstored, ?_⟩
    intro t
    rw [Get_valid l key t _ _ hstored (Or.inl rfl)]

/-- A run of C21 (amended): the text `41`, expired one second after the Unix
epoch, is incremented two seconds after it: `Incr(key, 1)` returns 42, not 1,
and the key is readable again. -/
theorem counters_ignore_expiration_witness :
    counterStorage.item demoCache.settings.database "counter" =
        some { expiration := unixEpoch + second, value := [52, 49] } ∧
      locmemCacheItem.IsValid { expiration := unixEpoch + second, value := [52, 49] }
        (unixEpoch + 2 * second) = false ∧
      ([52, 49] : Bytes) = Itoa 41 ∧ (minInt ≤ 41 ∧ (41 : Int) ≤ maxInt) ∧
      (demoCache.Get "counter" (unixEpoch + 2 * second) counterStorage).2 =
        ([], some CacheError.ErrNotFound) ∧
      (demoCache.Incr "counter" [1] counterStorage).2 = (41 + 1, none) ∧
      (demoCache.Get "counter" (unixEpoch + 2 * second)
        (demoCache.Incr "counter" [1] counterStorage).1).2 = (Itoa (41 + 1), none) :=
  have h := counters_ignore_expiration demoCache "counter" counterStorage
    { expiration := unixEpoch + second, value := [52, 49] } 41 1 (unixEpoch + 2 * second)
    (by decide) (by decide) (by decide) (by decide)
  have hi := h.2.1 (by decide)
  ⟨by decide, by decide, by decide, by decide, h.1, hi.1, hi.2.2 (unixEpoch + 2 * second)⟩

end Gocacher
